import Mathlib

set_option maxHeartbeats 1000000

/-! Shallow embedding of the Memory Scramble Board ADT (src/board.ts, Problem 1:
synchronous board, no waiting), together with its parser and snapshot renderer.
State is passed explicitly; every mutating operation returns the post-state
paired with an optional error, because in the source a thrown exception leaves
all mutations performed before the throw in place on the mutable `Board`. -/

/-- A grid position (row, column). The operations only distinguish in-bounds
naturals from everything else, so coordinates are embedded as naturals. -/
structure Pos where
  r : Nat
  c : Nat
deriving DecidableEq, Repr

/-- One card slot: `label`, `faceUp`, `controller` (the cell objects built in
the `Board` constructor of src/board.ts). -/
structure Slot where
  label : String
  faceUp : Bool
  controller : Option String
deriving DecidableEq, Repr

/-- Deferred outcome stored in `pending` (rules 3-A / 3-B of src/board.ts). -/
inductive Outcome where
  | matched (first second : Pos)
  | mismatched (first second : Pos)
deriving DecidableEq, Repr

def Outcome.first : Outcome → Pos
  | .matched a _ => a
  | .mismatched a _ => a

def Outcome.second : Outcome → Pos
  | .matched _ b => b
  | .mismatched _ b => b

/-- Errors thrown by src/board.ts. The source throws untyped `Error` values
distinguished only by message; one constructor per throw site / message family.
`riError` covers the internal representation-invariant throws (checkRep, row and
column bound checks of the private helpers), `internalError` the
"Internal: ..." throws, `formatError` the parsing throws. -/
inductive Err where
  | riError (msg : String)
  | internalError (msg : String)
  | oobFirst (r c : Nat)
  | emptyFirst
  | controlledFirst
  | noFirstSelection
  | emptySecond
  | controlledSecond
  | formatError (msg : String)
deriving DecidableEq, Repr

/-- Spec taxonomy (§7): EmptySpaceError is the category «flip target has no
card». In the source all errors are untyped and distinguished only by message;
the messages "Out of bounds (r,c)" (thrown by `slotAt` inside `flipFirst`),
"1-A: empty space" and "2-A: second position is empty" all denote this
category. -/
def Err.isEmptySpace : Err → Bool
  | .oobFirst _ _ => true
  | .emptyFirst => true
  | .emptySecond => true
  | _ => false

/-- JS `Map.get`, over an association list. -/
def mapGet {α : Type} (m : List (String × α)) (k : String) : Option α :=
  match m with
  | [] => none
  | kv :: rest => if kv.1 = k then some kv.2 else mapGet rest k

/-- JS `Map.set`, over an association list. -/
def mapSet {α : Type} (m : List (String × α)) (k : String) (v : α) :
    List (String × α) :=
  match m with
  | [] => [(k, v)]
  | kv :: rest => if kv.1 = k then (k, v) :: rest else kv :: mapSet rest k v

/-- JS `Map.delete`, over an association list. -/
def mapDel {α : Type} (m : List (String × α)) (k : String) :
    List (String × α) :=
  match m with
  | [] => []
  | kv :: rest => if kv.1 = k then mapDel rest k else kv :: mapDel rest k

/-- The Board representation: `rows`×`cols` grid of optional slots plus the two
per-player maps (src/board.ts fields). `pending` stores `Option Outcome`
values because `settleBeforeNewFirstMove` writes `null` into the map rather
than deleting the key. -/
structure Board where
  rows : Nat
  cols : Nat
  grid : List (List (Option Slot))
  firstSelection : List (String × Pos)
  pending : List (String × Option Outcome)
deriving DecidableEq, Repr

/-- `within` of src/board.ts (coordinates embedded as naturals, so the
`p.r >= 0` conjuncts of the source hold by typing). -/
def Board.within (b : Board) (p : Pos) : Prop :=
  p.r < b.rows ∧ p.c < b.cols

instance (b : Board) (p : Pos) : Decidable (b.within p) :=
  inferInstanceAs (Decidable (p.r < b.rows ∧ p.c < b.cols))

/-- The card-label test `/^[^\s\n\r]+$/u` of src/board.ts on a character list:
non-empty and free of whitespace. -/
def cardOkL (l : List Char) : Bool :=
  !l.isEmpty && l.all (fun ch => !ch.isWhitespace)

/-- The card-label test on a string. -/
def cardOk (s : String) : Bool := cardOkL s.data

/-- `checkRep` of src/board.ts as a boolean: grid dimensions, label validity,
face-down cards uncontrolled, pending positions in bounds. -/
def Board.checkRepB (b : Board) : Bool :=
  (b.grid.length == b.rows)
  && b.grid.all (fun row => row.length == b.cols)
  && b.grid.all (fun row => row.all (fun cell =>
      match cell with
      | none => true
      | some s => cardOk s.label && (s.faceUp || s.controller == none)))
  && b.pending.all (fun kv =>
      match kv.2 with
      | none => true
      | some o => decide (b.within o.first) && decide (b.within o.second))

/-- `getCell` of src/board.ts: throws when the row is missing, reads
`row[c] ?? null` otherwise (a hole or out-of-range column reads as empty). -/
def Board.getCellE (b : Board) (r c : Nat) : Except Err (Option Slot) :=
  match b.grid[r]? with
  | none => .error (.riError "row index out of bounds")
  | some row => .ok ((row[c]?).getD none)

/-- JS array assignment `row[c] = val`: in-range assignment replaces, past-end
assignment extends the array (holes read back as empty cells). -/
def setPad (row : List (Option Slot)) (c : Nat) (v : Option Slot) :
    List (Option Slot) :=
  if c < row.length then row.set c v
  else row ++ List.replicate (c - row.length) none ++ [v]

/-- `setCell` of src/board.ts: throws when the row is missing or the column is
not below `cols`. -/
def Board.setCellE (b : Board) (r c : Nat) (v : Option Slot) :
    Except Err Board :=
  match b.grid[r]? with
  | none => .error (.riError "row index out of bounds")
  | some row =>
    if c < b.cols then .ok { b with grid := b.grid.set r (setPad row c v) }
    else .error (.riError "column index out of bounds")

/-- `slotAt` of src/board.ts: out-of-bounds positions throw. -/
def Board.slotAtE (b : Board) (p : Pos) : Except Err (Option Slot) :=
  if b.within p then b.getCellE p.r p.c
  else .error (.oobFirst p.r p.c)

/-- In-place mutation of a cell object previously obtained from the grid
(`cell.faceUp = ...`, `slot.controller = ...` in the source): the row is known
to exist and the column to be in range, so this is a plain positional write. -/
def Board.updateCell (b : Board) (r c : Nat) (v : Option Slot) : Board :=
  { b with grid := b.grid.set r ((b.grid[r]?.getD []).set c v) }

/-- `this.pending.get(p) ?? null` of src/board.ts: a stored `null` and an
absent key are both «no pending outcome». -/
def Board.pendingOf (b : Board) (p : String) : Option Outcome :=
  (mapGet b.pending p).join

/-- The body of the 3-B loop of `settleBeforeNewFirstMove`: flip position `q`
face-down only when the live cell is non-empty, face-up and uncontrolled. -/
def Board.flipDownIfFree (b : Board) (q : Pos) : Board × Option Err :=
  match b.getCellE q.r q.c with
  | .error e => (b, some e)
  | .ok none => (b, none)
  | .ok (some s) =>
    if s.faceUp ∧ s.controller = none then
      (b.updateCell q.r q.c (some { s with faceUp := false }), none)
    else (b, none)

/-- The outcome-directed body of `settleBeforeNewFirstMove`: rule 3-A removes
both slots through `setCell`, rule 3-B runs the flip-down loop over the two
positions (an exception aborts the remaining steps, keeping mutations made so
far). -/
def Board.settleStep (b : Board) (outcome : Outcome) : Board × Option Err :=
  match outcome with
  | .matched fst snd =>
    match b.setCellE fst.r fst.c none with
    | .error e => (b, some e)
    | .ok bA =>
      match bA.setCellE snd.r snd.c none with
      | .error e => (bA, some e)
      | .ok bB => (bB, none)
  | .mismatched fst snd =>
    match b.flipDownIfFree fst with
    | (bA, some e) => (bA, some e)
    | (bA, none) => bA.flipDownIfFree snd

/-- Tail of `settleBeforeNewFirstMove`: when the step ran without throwing,
clear `pending[p]` (the source stores `null`) and run `checkRep`. -/
def settleFinish (p : String) (res : Board × Option Err) : Board × Option Err :=
  match res with
  | (bM, some e) => (bM, some e)
  | (bM, none) =>
    let bP := { bM with pending := mapSet bM.pending p none }
    if bP.checkRepB then (bP, none) else (bP, some (.riError "checkRep"))

/-- `settleBeforeNewFirstMove` of src/board.ts (rules 3-A / 3-B). -/
def Board.settleBeforeNewFirstMove (b : Board) (p : String) :
    Board × Option Err :=
  match b.pendingOf p with
  | none => (b, none)
  | some outcome => settleFinish p (b.settleStep outcome)

/-- Tail of `flipFirst`: record the first selection and run `checkRep`. -/
def Board.finishFlipFirst (b : Board) (pos : Pos) (who : String) :
    Board × Option Err :=
  let b2 := { b with firstSelection := mapSet b.firstSelection who pos }
  if b2.checkRepB then (b2, none) else (b2, some (.riError "checkRep"))

/-- `flipFirst` of src/board.ts (rules 1-A .. 1-D, Problem 1: no waiting, a
card controlled by another player makes the call throw 1-D immediately). -/
def Board.flipFirst (b : Board) (pos : Pos) (who : String) :
    Board × Option Err :=
  match b.settleBeforeNewFirstMove who with
  | (b1, some e) => (b1, some e)
  | (b1, none) =>
    match b1.slotAtE pos with
    | .error e => (b1, some e)
    | .ok none => (b1, some .emptyFirst)
    | .ok (some slot) =>
      if slot.faceUp = false then
        Board.finishFlipFirst
          (b1.updateCell pos.r pos.c
            (some { slot with faceUp := true, controller := some who }))
          pos who
      else if slot.controller = none then
        Board.finishFlipFirst
          (b1.updateCell pos.r pos.c (some { slot with controller := some who }))
          pos who
      else if slot.controller ≠ some who then
        (b1, some .controlledFirst)
      else
        Board.finishFlipFirst b1 pos who

/-- `relinquishFirstOnly` of src/board.ts: release the first-selected slot
(controller cleared, face orientation untouched) and forget the selection. -/
def Board.relinquishFirstOnly (b : Board) (who : String) :
    Board × Option Err :=
  match mapGet b.firstSelection who with
  | none => (b, none)
  | some first =>
    match b.slotAtE first with
    | .error e => (b, some e)
    | .ok s1opt =>
      let b1 := match s1opt with
        | none => b
        | some s1 => b.updateCell first.r first.c (some { s1 with controller := none })
      let b2 := { b1 with firstSelection := mapDel b1.firstSelection who }
      if b2.checkRepB then (b2, none) else (b2, some (.riError "checkRep"))

/-- The resolution tail of `flipSecond` (after the 2-A / 2-B checks and the
2-C flip-up): compare the two labels, set both controllers (2-D / 2-E), record
the pending outcome, clear the first selection, run `checkRep`. `s1` is the
first-selected slot as re-read after the 2-C write, `s2u` the already
flipped-up second slot. -/
def Board.flipSecondResolve (b1 : Board) (first pos : Pos) (who : String)
    (s1 s2u : Slot) : Board × Option Err :=
  let isMatch := s1.label = s2u.label
  let newCtl : Option String := if isMatch then some who else none
  let b2 := b1.updateCell first.r first.c (some { s1 with controller := newCtl })
  let b3 := b2.updateCell pos.r pos.c (some { s2u with controller := newCtl })
  let out : Outcome := if isMatch then .matched first pos
                       else .mismatched first pos
  let b4 := { b3 with
              pending := mapSet b3.pending who (some out),
              firstSelection := mapDel b3.firstSelection who }
  if b4.checkRepB then (b4, none) else (b4, some (.riError "checkRep"))

/-- `flipSecond` of src/board.ts (rules 2-A .. 2-E). The source reads the two
cells as live object references; the embedding threads the updated second slot
`s2u` and re-reads the first slot after the 2-C write, which reproduces the
aliasing behaviour when both positions coincide. -/
def Board.flipSecond (b : Board) (pos : Pos) (who : String) :
    Board × Option Err :=
  match mapGet b.firstSelection who with
  | none => (b, some .noFirstSelection)
  | some first =>
    let s2E : Except Err (Option Slot) :=
      if b.within pos then b.getCellE pos.r pos.c else .ok none
    match s2E with
    | .error e => (b, some e)
    | .ok none =>
      match b.relinquishFirstOnly who with
      | (b1, some e) => (b1, some e)
      | (b1, none) => (b1, some .emptySecond)
    | .ok (some s2) =>
      if s2.faceUp ∧ s2.controller ≠ none then
        match b.relinquishFirstOnly who with
        | (b1, some e) => (b1, some e)
        | (b1, none) => (b1, some .controlledSecond)
      else
        let s2u := if s2.faceUp then s2 else { s2 with faceUp := true }
        let b1 := if s2.faceUp then b else b.updateCell pos.r pos.c (some s2u)
        match b1.slotAtE first with
        | .error e => (b1, some e)
        | .ok none => (b1, some (.internalError "first selection missing"))
        | .ok (some s1) => b1.flipSecondResolve first pos who s1 s2u

/-- The per-cell line of `snapshot` (the body of its double loop). -/
def cellLine (forPlayer : String) (cell : Option Slot) : String :=
  match cell with
  | none => "none"
  | some s =>
    if s.faceUp = false then "down"
    else if s.controller = some forPlayer then "my " ++ s.label
    else "up " ++ s.label

/-- `out.join("\n")` of `snapshot`. -/
def joinNL : List String → String
  | [] => ""
  | [s] => s
  | s :: rest@(_ :: _) => s ++ "\n" ++ joinNL rest

/-- Row-major iteration order of `snapshot`'s double loop. -/
def rowMajorIdx (rows cols : Nat) : List (Nat × Nat) :=
  (List.range rows).flatMap (fun r => (List.range cols).map (fun c => (r, c)))

/-- Effectful map, sequencing `Except` left to right (the loops of the source
that can throw on any iteration). -/
def mapME {α β : Type} (f : α → Except Err β) : List α → Except Err (List β)
  | [] => .ok []
  | x :: xs =>
    match f x with
    | .error e => .error e
    | .ok y =>
      match mapME f xs with
      | .error e => .error e
      | .ok ys => .ok (y :: ys)

/-- `snapshot` of src/board.ts: header line, then one line per cell in
row-major order, joined with newlines and terminated by one. Pure: it takes
the board and returns a string, mutating nothing. -/
def Board.snapshot (b : Board) (forPlayer : String) : Except Err String :=
  match mapME (fun rc => b.getCellE rc.1 rc.2) (rowMajorIdx b.rows b.cols) with
  | .error e => .error e
  | .ok cells =>
    .ok (joinNL ((Nat.repr b.rows ++ "x" ++ Nat.repr b.cols)
          :: cells.map (cellLine forPlayer)) ++ "\n")

/-- One cell of the constructor's grid comprehension: `labels[r*cols+c]`,
throwing "Internal: missing label" when absent. -/
def mkCell (labels : List String) (idx : Nat) : Except Err (Option Slot) :=
  match labels[idx]? with
  | none => .error (.internalError "missing label")
  | some label => .ok (some { label := label, faceUp := false, controller := none })

/-- The `Board` constructor of src/board.ts: build the grid face-down and
uncontrolled from the labels, then run `checkRep`. -/
def Board.construct (rows cols : Nat) (labels : List String) :
    Except Err Board :=
  match mapME (fun r => mapME (fun c => mkCell labels (r * cols + c)) (List.range cols))
      (List.range rows) with
  | .error e => .error e
  | .ok grid =>
    let b : Board := { rows := rows, cols := cols, grid := grid,
                       firstSelection := [], pending := [] }
    if b.checkRepB then .ok b else .error (.riError "checkRep")

/-- Line splitting of `parseFromFile`: the source first rewrites CRLF and CR to
LF, splits on LF and drops empty lines; splitting directly at every LF or CR
character and dropping empty pieces yields the same list. -/
def splitLinesAux : List Char → List Char → List (List Char)
  | [], acc => [acc.reverse]
  | ch :: rest, acc =>
    if ch = '\n' ∨ ch = '\r' then acc.reverse :: splitLinesAux rest []
    else splitLinesAux rest (ch :: acc)

/-- The non-blank lines of the board definition text. -/
def boardLines (text : String) : List String :=
  ((splitLinesAux text.data []).filter (fun l => !l.isEmpty)).map
    (fun l => String.mk l)

/-- Splitting the header at every letter `x` (the shape accepted by the header
pattern `/^([0-9]+)x([0-9]+)$/` is exactly: two non-empty all-digit pieces). -/
def splitOnXAux : List Char → List Char → List (List Char)
  | [], acc => [acc.reverse]
  | ch :: rest, acc =>
    if ch = 'x' then acc.reverse :: splitOnXAux rest []
    else splitOnXAux rest (ch :: acc)

/-- `parseInt` on an all-digit string. -/
def digitsVal (l : List Char) : Nat :=
  l.foldl (fun n ch => n * 10 + (ch.toNat - '0'.toNat)) 0

/-- The header match of `parseFromFile`. -/
def parseHeader (s : String) : Option (Nat × Nat) :=
  match splitOnXAux s.data [] with
  | [a, b] =>
    if a ≠ [] ∧ b ≠ [] ∧ a.all Char.isDigit ∧ b.all Char.isDigit then
      some (digitsVal a, digitsVal b)
    else none
  | _ => none

/-- The pure body of `parseFromFile` of src/board.ts, applied to the text read
from the file: validate the header, the card-line count and every card token,
then construct the board. (`Char.isWhitespace` stands for the `\s` class of
the source's card pattern.) -/
def parseBoard (text : String) : Except Err Board :=
  match boardLines text with
  | [] => .error (.formatError "Malformed board: missing header")
  | header :: cards =>
    match parseHeader header with
    | none => .error (.formatError ("Malformed header, expected ROWxCOL: " ++ header))
    | some (rows, cols) =>
      if rows = 0 ∨ cols = 0 then
        .error (.formatError "Rows/cols must be positive integers")
      else if cards.length ≠ rows * cols then
        .error (.formatError "Malformed board: wrong number of card lines")
      else
        match cards.find? (fun card => !cardOk card) with
        | some bad => .error (.formatError ("Invalid card: " ++ bad))
        | none => Board.construct rows cols cards

/-- Observable cell reading used by the theorems: the slot at a position, empty
when the position is outside the stored grid. -/
def Board.cellAt (b : Board) (q : Pos) : Option Slot :=
  match b.grid[q.r]? with
  | none => none
  | some row => (row[q.c]?).getD none

/-- The grid has exactly the advertised dimensions. -/
def Board.gridWF (b : Board) : Prop :=
  b.grid.length = b.rows ∧ ∀ row ∈ b.grid, row.length = b.cols

/-! ### Association-list map lemmas -/

theorem mapGet_set_self {α : Type} (m : List (String × α)) (k : String) (v : α) :
    mapGet (mapSet m k v) k = some v := by
  induction m with
  | nil => simp [mapGet, mapSet]
  | cons kv rest ih =>
    by_cases h : kv.1 = k
    · simp [mapGet, mapSet, h]
    · simp [mapGet, mapSet, h, ih]

theorem mapGet_set_ne {α : Type} (m : List (String × α)) (k k' : String) (v : α)
    (h : k ≠ k') : mapGet (mapSet m k v) k' = mapGet m k' := by
  induction m with
  | nil => simp [mapGet, mapSet, h]
  | cons kv rest ih =>
    by_cases hk : kv.1 = k
    · simp [mapGet, mapSet, hk, h]
    · by_cases hk' : kv.1 = k'
      · simp [mapGet, mapSet, hk, hk', Ne.symm h]
      · simp [mapGet, mapSet, hk, hk', ih]

theorem mapGet_del_self {α : Type} (m : List (String × α)) (k : String) :
    mapGet (mapDel m k) k = none := by
  induction m with
  | nil => simp [mapGet, mapDel]
  | cons kv rest ih =>
    by_cases h : kv.1 = k
    · simp [mapDel, h, ih]
    · simp [mapGet, mapDel, h, ih]

theorem mapGet_del_ne {α : Type} (m : List (String × α)) (k k' : String)
    (h : k ≠ k') : mapGet (mapDel m k) k' = mapGet m k' := by
  induction m with
  | nil => simp [mapGet, mapDel]
  | cons kv rest ih =>
    by_cases hk : kv.1 = k
    · have : kv.1 ≠ k' := by rw [hk]; exact h
      simp [mapGet, mapDel, hk, this, h, ih]
    · simp [mapGet, mapDel, hk, ih]

/-! ### Cell access and update lemmas -/

@[simp] theorem updateCell_rows (b : Board) (r c : Nat) (v : Option Slot) :
    (b.updateCell r c v).rows = b.rows := rfl

@[simp] theorem updateCell_cols (b : Board) (r c : Nat) (v : Option Slot) :
    (b.updateCell r c v).cols = b.cols := rfl

@[simp] theorem updateCell_firstSelection (b : Board) (r c : Nat) (v : Option Slot) :
    (b.updateCell r c v).firstSelection = b.firstSelection := rfl

@[simp] theorem updateCell_pending (b : Board) (r c : Nat) (v : Option Slot) :
    (b.updateCell r c v).pending = b.pending := rfl

theorem cellAt_some_imp (b : Board) (q : Pos) (s : Slot)
    (h : b.cellAt q = some s) :
    ∃ row, b.grid[q.r]? = some row ∧ row[q.c]? = some (some s) := by
  unfold Board.cellAt at h
  cases hrow : b.grid[q.r]? with
  | none => simp [hrow] at h
  | some row =>
    simp only [hrow] at h
    refine ⟨row, rfl, ?_⟩
    cases hc : row[q.c]? with
    | none => simp [hc] at h
    | some cell => simp only [hc, Option.getD_some] at h; rw [h]

theorem cellAt_updateCell_self (b : Board) (q : Pos) (v : Option Slot)
    (row : List (Option Slot)) (hrow : b.grid[q.r]? = some row)
    (hc : q.c < row.length) :
    (b.updateCell q.r q.c v).cellAt q = v := by
  have hr : q.r < b.grid.length := by
    by_contra hge
    rw [List.getElem?_eq_none (by omega)] at hrow
    exact Option.noConfusion hrow
  unfold Board.updateCell Board.cellAt
  simp only [hrow, Option.getD_some]
  rw [List.getElem?_set_eq_of_lt _ hr]
  simp only [Option.getD_some]
  rw [List.getElem?_set_eq_of_lt _ (by simpa using hc)]
  rfl

theorem cellAt_updateCell_ne (b : Board) (p q : Pos) (v : Option Slot)
    (h : p.r ≠ q.r ∨ p.c ≠ q.c) :
    (b.updateCell p.r p.c v).cellAt q = b.cellAt q := by
  unfold Board.updateCell Board.cellAt
  rcases h with h | h
  · rw [List.getElem?_set_ne h]
  · by_cases hr : p.r = q.r
    · rw [hr]
      cases hrow : b.grid[q.r]? with
      | none =>
        have hge : b.grid.length ≤ q.r := by
          by_contra hlt
          rw [List.getElem?_eq_getElem (by omega)] at hrow
          exact Option.noConfusion hrow
        rw [List.set_eq_of_length_le hge, hrow]
      | some row =>
        have hr' : q.r < b.grid.length := by
          by_contra hge
          rw [List.getElem?_eq_none (by omega)] at hrow
          exact Option.noConfusion hrow
        rw [List.getElem?_set_eq_of_lt _ hr']
        simp only [hrow, Option.getD_some]
        rw [List.getElem?_set_ne h]
    · rw [List.getElem?_set_ne hr]


theorem cellAt_updateCell (b : Board) (p q : Pos) (v : Option Slot) :
    (b.updateCell p.r p.c v).cellAt q = v
    ∨ (b.updateCell p.r p.c v).cellAt q = b.cellAt q := by
  by_cases hq : p.r = q.r ∧ p.c = q.c
  · have hpq : q = p := by
      obtain ⟨h1, h2⟩ := hq
      cases p; cases q; simp_all
    subst hpq
    cases hrow : b.grid[q.r]? with
    | none =>
      right
      have hge : b.grid.length ≤ q.r := by
        by_contra hlt
        rw [List.getElem?_eq_getElem (by omega)] at hrow
        exact Option.noConfusion hrow
      unfold Board.updateCell Board.cellAt
      rw [List.set_eq_of_length_le hge]
    | some row =>
      by_cases hc' : q.c < row.length
      · left
        exact cellAt_updateCell_self b q v row hrow hc'
      · right
        have hr' : q.r < b.grid.length := by
          by_contra hge
          rw [List.getElem?_eq_none (by omega)] at hrow
          exact Option.noConfusion hrow
        unfold Board.updateCell Board.cellAt
        simp only [hrow, Option.getD_some]
        rw [List.getElem?_set_eq_of_lt _ hr']
        simp only [Option.getD_some]
        rw [List.set_eq_of_length_le (by omega)]
  · right
    exact cellAt_updateCell_ne b p q v (not_and_or.mp hq)

theorem updateCell_gridWF (b : Board) (r c : Nat) (v : Option Slot)
    (h : b.gridWF) : (b.updateCell r c v).gridWF := by
  obtain ⟨hlen, hall⟩ := h
  cases hg : b.grid[r]? with
  | none =>
    have hge : b.grid.length ≤ r := by
      by_contra hlt
      rw [List.getElem?_eq_getElem (by omega)] at hg
      exact Option.noConfusion hg
    constructor
    · simpa [Board.updateCell] using hlen
    · intro row hrow
      simp only [Board.updateCell] at hrow
      rw [List.set_eq_of_length_le hge] at hrow
      exact hall row hrow
  | some row0 =>
    have hmem0 : row0 ∈ b.grid := List.getElem?_mem hg
    have hlen0 : row0.length = b.cols := hall row0 hmem0
    constructor
    · simpa [Board.updateCell] using hlen
    · intro row hrow
      simp only [Board.updateCell, hg, Option.getD_some] at hrow
      rcases List.mem_or_eq_of_mem_set hrow with hmem | heq
      · exact hall row hmem
      · subst heq
        rw [List.length_set]
        exact hlen0

theorem gridWF_row (b : Board) (h : b.gridWF) (r : Nat) (hr : r < b.rows) :
    ∃ row, b.grid[r]? = some row ∧ row.length = b.cols := by
  obtain ⟨hlen, hall⟩ := h
  have hlt : r < b.grid.length := by omega
  exact ⟨b.grid[r], List.getElem?_eq_getElem hlt,
    hall _ (List.getElem_mem hlt)⟩

theorem setCellE_ok_eq (b : Board) (r c : Nat) (v : Option Slot)
    (row : List (Option Slot)) (hrow : b.grid[r]? = some row)
    (hlen : row.length = b.cols) (hc : c < b.cols) :
    b.setCellE r c v = .ok (b.updateCell r c v) := by
  have hc' : c < row.length := by rw [hlen]; exact hc
  unfold Board.setCellE Board.updateCell setPad
  simp only [hrow, Option.getD_some, if_pos hc, if_pos hc']

theorem setCellE_fields (b b' : Board) (r c : Nat) (v : Option Slot)
    (h : b.setCellE r c v = .ok b') :
    b'.rows = b.rows ∧ b'.cols = b.cols ∧ b'.firstSelection = b.firstSelection
      ∧ b'.pending = b.pending := by
  unfold Board.setCellE at h
  cases hrow : b.grid[r]? with
  | none => rw [hrow] at h; exact absurd h (by simp)
  | some row =>
    rw [hrow] at h
    by_cases hc : c < b.cols
    · simp only [hc, if_true, Except.ok.injEq] at h
      subst h
      exact ⟨rfl, rfl, rfl, rfl⟩
    · simp [hc] at h

theorem flipDownIfFree_fields (b : Board) (q : Pos) :
    (b.flipDownIfFree q).1.rows = b.rows
    ∧ (b.flipDownIfFree q).1.cols = b.cols
    ∧ (b.flipDownIfFree q).1.firstSelection = b.firstSelection
    ∧ (b.flipDownIfFree q).1.pending = b.pending := by
  unfold Board.flipDownIfFree
  cases b.getCellE q.r q.c with
  | error e => exact ⟨rfl, rfl, rfl, rfl⟩
  | ok cell =>
    cases cell with
    | none => exact ⟨rfl, rfl, rfl, rfl⟩
    | some s =>
      by_cases hcond : s.faceUp ∧ s.controller = none
      · simp [hcond]
      · simp [hcond]

theorem settleFinish_fields (p : String) (res : Board × Option Err) :
    (settleFinish p res).1.rows = res.1.rows
    ∧ (settleFinish p res).1.cols = res.1.cols
    ∧ (settleFinish p res).1.firstSelection = res.1.firstSelection := by
  obtain ⟨bM, eM⟩ := res
  cases eM with
  | some e => exact ⟨rfl, rfl, rfl⟩
  | none =>
    simp only [settleFinish]
    split <;> exact ⟨rfl, rfl, rfl⟩

theorem settleStep_fields (b : Board) (outcome : Outcome) :
    (b.settleStep outcome).1.rows = b.rows
    ∧ (b.settleStep outcome).1.cols = b.cols
    ∧ (b.settleStep outcome).1.firstSelection = b.firstSelection
    ∧ (b.settleStep outcome).1.pending = b.pending := by
  cases outcome with
  | matched fst snd =>
    simp only [Board.settleStep]
    cases hA : b.setCellE fst.r fst.c none with
    | error e => exact ⟨rfl, rfl, rfl, rfl⟩
    | ok bA =>
      dsimp only
      obtain ⟨hA1, hA2, hA3, hA4⟩ := setCellE_fields b bA fst.r fst.c none hA
      cases hB : bA.setCellE snd.r snd.c none with
      | error e => exact ⟨hA1, hA2, hA3, hA4⟩
      | ok bB =>
        dsimp only
        obtain ⟨hB1, hB2, hB3, hB4⟩ := setCellE_fields bA bB snd.r snd.c none hB
        exact ⟨hB1.trans hA1, hB2.trans hA2, hB3.trans hA3, hB4.trans hA4⟩
  | mismatched fst snd =>
    simp only [Board.settleStep]
    obtain ⟨hf1, hf2, hf3, hf4⟩ := flipDownIfFree_fields b fst
    cases hA : b.flipDownIfFree fst with
    | mk bA eA =>
      rw [hA] at hf1 hf2 hf3 hf4
      cases eA with
      | some e => exact ⟨hf1, hf2, hf3, hf4⟩
      | none =>
        obtain ⟨hg1, hg2, hg3, hg4⟩ := flipDownIfFree_fields bA snd
        exact ⟨hg1.trans hf1, hg2.trans hf2, hg3.trans hf3, hg4.trans hf4⟩

theorem settle_fields (b : Board) (p : String) :
    (b.settleBeforeNewFirstMove p).1.rows = b.rows
    ∧ (b.settleBeforeNewFirstMove p).1.cols = b.cols
    ∧ (b.settleBeforeNewFirstMove p).1.firstSelection = b.firstSelection := by
  unfold Board.settleBeforeNewFirstMove
  cases hp : b.pendingOf p with
  | none => exact ⟨rfl, rfl, rfl⟩
  | some outcome =>
    obtain ⟨h1, h2, h3⟩ := settleFinish_fields p (b.settleStep outcome)
    obtain ⟨g1, g2, g3, _⟩ := settleStep_fields b outcome
    exact ⟨h1.trans g1, h2.trans g2, h3.trans g3⟩

theorem settleFinish_fst (p : String) (bM : Board) :
    (settleFinish p (bM, none)).1
      = { bM with pending := mapSet bM.pending p none } := by
  simp only [settleFinish]
  split <;> rfl

theorem pos_ne_iff (a bb : Pos) : a ≠ bb ↔ a.r ≠ bb.r ∨ a.c ≠ bb.c := by
  cases a; cases bb
  constructor
  · intro h
    by_contra hc
    push_neg at hc
    obtain ⟨h1, h2⟩ := hc
    simp only at h1 h2
    exact h (by rw [h1, h2])
  · intro h heq
    cases heq
    rcases h with h | h <;> exact h rfl

theorem getCellE_ok (b : Board) (q : Pos) (hwf : b.gridWF) (hr : q.r < b.rows) :
    b.getCellE q.r q.c = .ok (b.cellAt q) := by
  obtain ⟨row, hrow, _⟩ := gridWF_row b hwf q.r hr
  unfold Board.getCellE Board.cellAt
  simp [hrow]

theorem cellAt_updateCell_self_wf (b : Board) (q : Pos) (v : Option Slot)
    (hwf : b.gridWF) (hq : b.within q) :
    (b.updateCell q.r q.c v).cellAt q = v := by
  obtain ⟨row, hrow, hlen⟩ := gridWF_row b hwf q.r hq.1
  exact cellAt_updateCell_self b q v row hrow (by rw [hlen]; exact hq.2)

theorem flipDownIfFree_eq_none (b : Board) (q : Pos) (hwf : b.gridWF)
    (hr : q.r < b.rows) (h : b.cellAt q = none) :
    b.flipDownIfFree q = (b, none) := by
  unfold Board.flipDownIfFree
  rw [getCellE_ok b q hwf hr, h]

theorem flipDownIfFree_eq_some (b : Board) (q : Pos) (s : Slot)
    (hwf : b.gridWF) (hr : q.r < b.rows) (h : b.cellAt q = some s) :
    b.flipDownIfFree q =
      (if s.faceUp ∧ s.controller = none
       then (b.updateCell q.r q.c (some { s with faceUp := false }), none)
       else (b, none)) := by
  unfold Board.flipDownIfFree
  rw [getCellE_ok b q hwf hr, h]

theorem pendingOf_set_none (bM : Board) (p : String) :
    Board.pendingOf { bM with pending := mapSet bM.pending p none } p = none := by
  unfold Board.pendingOf
  simp [mapGet_set_self]

theorem cellAt_set_pending (bM : Board) (x : List (String × Option Outcome))
    (q : Pos) : Board.cellAt { bM with pending := x } q = bM.cellAt q := rfl

/-- The per-position effect of rule 3-B on a cell, as described by the spec:
flip face-down exactly when the cell is currently non-empty, face-up and
uncontrolled; otherwise leave it alone. -/
def settledCell (cell : Option Slot) : Option Slot :=
  match cell with
  | none => none
  | some s =>
    if s.faceUp ∧ s.controller = none then some { s with faceUp := false }
    else some s

theorem flipDownIfFree_full (b : Board) (q : Pos) (hwf : b.gridWF)
    (hq : b.within q) :
    (b.flipDownIfFree q).2 = none
    ∧ (b.flipDownIfFree q).1.cellAt q = settledCell (b.cellAt q)
    ∧ (∀ q' : Pos, (q'.r ≠ q.r ∨ q'.c ≠ q.c) →
        (b.flipDownIfFree q).1.cellAt q' = b.cellAt q')
    ∧ (b.flipDownIfFree q).1.gridWF := by
  rcases hc : b.cellAt q with _ | s
  · rw [flipDownIfFree_eq_none b q hwf hq.1 hc]
    exact ⟨rfl, by rw [hc]; rfl, fun q' _ => rfl, hwf⟩
  · rw [flipDownIfFree_eq_some b q s hwf hq.1 hc]
    by_cases hcond : s.faceUp ∧ s.controller = none
    · rw [if_pos hcond]
      refine ⟨rfl, ?_, ?_, updateCell_gridWF b q.r q.c _ hwf⟩
      · rw [cellAt_updateCell_self_wf b q _ hwf hq]
        simp [settledCell, hcond]
      · intro q' hne
        exact cellAt_updateCell_ne b q q' _ (by tauto)
    · rw [if_neg hcond]
      refine ⟨rfl, ?_, fun q' _ => rfl, hwf⟩
      rw [hc]
      simp only [settledCell, if_neg hcond]

/-- C1: for a player with a pending outcome, `settleBeforeNewFirstMove(player)`
behaves as follows. `Matched{a,b}`: both slots become empty unconditionally,
regardless of their controller state. `Mismatched{a,b}`: each position is
flipped face-down exactly when its live cell is non-empty, face-up and
uncontrolled (`settledCell`). In both cases `pending[player]` is cleared
afterwards unconditionally; when `pending[player]` is absent the call is a
no-op. -/
theorem claim_C1_settle (b : Board) (p : String) :
    (b.pendingOf p = none → b.settleBeforeNewFirstMove p = (b, none))
    ∧ (∀ a bb : Pos, b.pendingOf p = some (.matched a bb) →
        b.gridWF → b.within a → b.within bb →
        (b.settleBeforeNewFirstMove p).1.cellAt a = none
        ∧ (b.settleBeforeNewFirstMove p).1.cellAt bb = none
        ∧ (b.settleBeforeNewFirstMove p).1.pendingOf p = none)
    ∧ (∀ a bb : Pos, b.pendingOf p = some (.mismatched a bb) →
        b.gridWF → b.within a → b.within bb → a ≠ bb →
        (b.settleBeforeNewFirstMove p).1.cellAt a = settledCell (b.cellAt a)
        ∧ (b.settleBeforeNewFirstMove p).1.cellAt bb = settledCell (b.cellAt bb)
        ∧ (b.settleBeforeNewFirstMove p).1.pendingOf p = none) := by
  refine ⟨?_, ?_, ?_⟩
  · intro hp
    unfold Board.settleBeforeNewFirstMove
    rw [hp]
  · intro a bb hp hwf ha hb
    obtain ⟨rowA, hrowA, hlenA⟩ := gridWF_row b hwf a.r ha.1
    have hstep1 : b.setCellE a.r a.c none = .ok (b.updateCell a.r a.c none) :=
      setCellE_ok_eq b a.r a.c none rowA hrowA hlenA ha.2
    have hwf1 : (b.updateCell a.r a.c none).gridWF :=
      updateCell_gridWF b a.r a.c none hwf
    have hb' : (b.updateCell a.r a.c none).within bb := hb
    obtain ⟨rowB, hrowB, hlenB⟩ :=
      gridWF_row (b.updateCell a.r a.c none) hwf1 bb.r hb'.1
    have hstep2 : (b.updateCell a.r a.c none).setCellE bb.r bb.c none
        = .ok ((b.updateCell a.r a.c none).updateCell bb.r bb.c none) :=
      setCellE_ok_eq _ bb.r bb.c none rowB hrowB hlenB hb'.2
    have hsettle : b.settleBeforeNewFirstMove p
        = settleFinish p
            ((b.updateCell a.r a.c none).updateCell bb.r bb.c none, none) := by
      unfold Board.settleBeforeNewFirstMove Board.settleStep
      rw [hp]
      dsimp only
      rw [hstep1]
      dsimp only
      rw [hstep2]
    have hfst : (b.settleBeforeNewFirstMove p).1
        = { (b.updateCell a.r a.c none).updateCell bb.r bb.c none with
            pending := mapSet
              ((b.updateCell a.r a.c none).updateCell bb.r bb.c none).pending
              p none } := by
      rw [hsettle, settleFinish_fst]
    refine ⟨?_, ?_, ?_⟩
    · rw [hfst, cellAt_set_pending]
      rcases cellAt_updateCell (b.updateCell a.r a.c none) bb a none with h | h
      · exact h
      · rw [h, cellAt_updateCell_self_wf b a none hwf ha]
    · rw [hfst, cellAt_set_pending,
        cellAt_updateCell_self_wf (b.updateCell a.r a.c none) bb none hwf1 hb']
    · rw [hfst, pendingOf_set_none]
  · intro a bb hp hwf ha hb hne
    have hne' := (pos_ne_iff a bb).mp hne
    obtain ⟨hA2, hAcell, hAother, hAwf⟩ := flipDownIfFree_full b a hwf ha
    rcases hAres : b.flipDownIfFree a with ⟨bA, eA⟩
    rw [hAres] at hA2 hAcell hAother hAwf
    simp only at hA2
    subst hA2
    have hbA_rows : bA.rows = b.rows := ((flipDownIfFree_fields b a).1).symm ▸
      (by rw [hAres])
    have hbA_dims : bA.rows = b.rows ∧ bA.cols = b.cols := by
      have h1 := (flipDownIfFree_fields b a).1
      have h2 := (flipDownIfFree_fields b a).2.1
      rw [hAres] at h1 h2
      exact ⟨h1, h2⟩
    have hbB : bA.within bb := by
      obtain ⟨h1, h2⟩ := hbA_dims
      exact ⟨by rw [h1]; exact hb.1, by rw [h2]; exact hb.2⟩
    obtain ⟨hB2, hBcell, hBother, hBwf⟩ := flipDownIfFree_full bA bb hAwf hbB
    rcases hBres : bA.flipDownIfFree bb with ⟨bB, eB⟩
    rw [hBres] at hB2 hBcell hBother hBwf
    simp only at hB2
    subst hB2
    have hsettle : b.settleBeforeNewFirstMove p = settleFinish p (bB, none) := by
      unfold Board.settleBeforeNewFirstMove Board.settleStep
      rw [hp]
      dsimp only
      rw [hAres]
      dsimp only
      rw [hBres]
    have hfst : (b.settleBeforeNewFirstMove p).1
        = { bB with pending := mapSet bB.pending p none } := by
      rw [hsettle, settleFinish_fst]
    refine ⟨?_, ?_, ?_⟩
    · rw [hfst, cellAt_set_pending]
      rw [hBother a (by tauto)]
      exact hAcell
    · rw [hfst, cellAt_set_pending, hBcell]
      rw [hAother bb (by tauto)]
    · rw [hfst, pendingOf_set_none]

theorem mem_mapSet {α : Type} (m : List (String × α)) (k : String) (v : α)
    (kv : String × α) (h : kv ∈ mapSet m k v) : kv ∈ m ∨ kv = (k, v) := by
  induction m with
  | nil => simp [mapSet] at h; right; exact h
  | cons kv0 rest ih =>
    by_cases hk : kv0.1 = k
    · simp only [mapSet, if_pos hk, List.mem_cons] at h
      rcases h with h | h
      · right; exact h
      · left; exact List.mem_cons_of_mem _ h
    · simp only [mapSet, if_neg hk, List.mem_cons] at h
      rcases h with h | h
      · left; rw [h]; exact List.mem_cons_self kv0 rest
      · rcases ih h with h' | h'
        · left; exact List.mem_cons_of_mem _ h'
        · right; exact h'

theorem checkRepB_eq_true_iff (b : Board) :
    b.checkRepB = true ↔
      b.grid.length = b.rows
      ∧ (∀ row ∈ b.grid, row.length = b.cols)
      ∧ (∀ row ∈ b.grid, ∀ cell ∈ row, ∀ s : Slot, cell = some s →
          cardOk s.label = true ∧ (s.faceUp = true ∨ s.controller = none))
      ∧ (∀ kv ∈ b.pending, ∀ o : Outcome, kv.2 = some o →
          b.within o.first ∧ b.within o.second) := by
  unfold Board.checkRepB
  simp only [Bool.and_eq_true, beq_iff_eq, List.all_eq_true]
  constructor
  · rintro ⟨⟨⟨h1, h2⟩, h3⟩, h4⟩
    refine ⟨h1, h2, ?_, ?_⟩
    · intro row hrow cell hcell s hs
      have hc := h3 row hrow cell hcell
      rw [hs] at hc
      simp only [Bool.and_eq_true, Bool.or_eq_true, beq_iff_eq] at hc
      exact ⟨hc.1, hc.2.imp id id⟩
    · intro kv hkv o ho
      have hc := h4 kv hkv
      rw [ho] at hc
      simp only [Bool.and_eq_true, decide_eq_true_eq] at hc
      exact hc
  · rintro ⟨h1, h2, h3, h4⟩
    refine ⟨⟨⟨h1, h2⟩, ?_⟩, ?_⟩
    · intro row hrow cell hcell
      cases hc : cell with
      | none => rfl
      | some s =>
        obtain ⟨hca, hcb⟩ := h3 row hrow cell hcell s hc
        simp only [Bool.and_eq_true, Bool.or_eq_true, beq_iff_eq]
        exact ⟨hca, hcb.imp id id⟩
    · intro kv hkv
      cases hc : kv.2 with
      | none => rfl
      | some o =>
        obtain ⟨hca, hcb⟩ := h4 kv hkv o hc
        simp only [Bool.and_eq_true, decide_eq_true_eq]
        exact ⟨hca, hcb⟩

theorem checkRep_cell (b : Board) (hcr : b.checkRepB = true) (q : Pos)
    (s : Slot) (h : b.cellAt q = some s) :
    cardOk s.label = true ∧ (s.faceUp = true ∨ s.controller = none) := by
  obtain ⟨row, hrow, hcell⟩ := cellAt_some_imp b q s h
  have hmemrow : row ∈ b.grid := List.getElem?_mem hrow
  have hmemcell : some s ∈ row := List.getElem?_mem hcell
  exact ((checkRepB_eq_true_iff b).mp hcr).2.2.1 row hmemrow (some s) hmemcell s rfl

theorem checkRep_updateCell (b : Board) (q : Pos) (v : Option Slot)
    (hcr : b.checkRepB = true)
    (hv : ∀ s' : Slot, v = some s' →
      cardOk s'.label = true ∧ (s'.faceUp = true ∨ s'.controller = none)) :
    (b.updateCell q.r q.c v).checkRepB = true := by
  obtain ⟨h1, h2, h3, h4⟩ := (checkRepB_eq_true_iff b).mp hcr
  have hwf' : (b.updateCell q.r q.c v).gridWF :=
    updateCell_gridWF b q.r q.c v ⟨h1, h2⟩
  refine (checkRepB_eq_true_iff _).mpr ⟨hwf'.1, hwf'.2, ?_, ?_⟩
  · intro row hrow cell hcell s hs
    simp only [Board.updateCell] at hrow
    rcases List.mem_or_eq_of_mem_set hrow with hmem | heq
    · exact h3 row hmem cell hcell s hs
    · subst heq
      rcases List.mem_or_eq_of_mem_set hcell with hmem | heq'
      · cases hg : b.grid[q.r]? with
        | none => simp [hg] at hmem
        | some row0 =>
          rw [hg] at hmem
          exact h3 row0 (List.getElem?_mem hg) cell hmem s hs
      · subst heq'
        exact hv s hs
  · intro kv hkv o ho
    exact h4 kv hkv o ho

theorem checkRep_set_firstSelection (b : Board) (x : List (String × Pos)) :
    Board.checkRepB { b with firstSelection := x } = b.checkRepB := rfl

theorem checkRep_set_pending (b : Board) (hcr : b.checkRepB = true)
    (p : String) (v : Option Outcome)
    (hv : ∀ o : Outcome, v = some o → b.within o.first ∧ b.within o.second) :
    Board.checkRepB { b with pending := mapSet b.pending p v } = true := by
  obtain ⟨h1, h2, h3, h4⟩ := (checkRepB_eq_true_iff b).mp hcr
  refine (checkRepB_eq_true_iff _).mpr ⟨h1, h2, h3, ?_⟩
  intro kv hkv o ho
  rcases mem_mapSet b.pending p v kv hkv with hmem | heq
  · exact h4 kv hmem o ho
  · subst heq
    exact hv o ho

theorem getCellE_ok_inv (b : Board) (r c : Nat) (x : Option Slot)
    (h : b.getCellE r c = .ok x) : b.cellAt ⟨r, c⟩ = x := by
  unfold Board.getCellE at h
  unfold Board.cellAt
  cases hrow : b.grid[r]? with
  | none => rw [hrow] at h; exact absurd h (by simp)
  | some row =>
    rw [hrow] at h
    simp only [Except.ok.injEq] at h
    simp only
    exact h

theorem slotAtE_ok (b : Board) (pos : Pos) (hwf : b.gridWF)
    (hpos : b.within pos) : b.slotAtE pos = .ok (b.cellAt pos) := by
  unfold Board.slotAtE
  rw [if_pos hpos]
  have := getCellE_ok b pos hwf hpos.1
  exact this

theorem setCellE_ok_inv (b b' : Board) (r c : Nat) (v : Option Slot)
    (hwf : b.gridWF) (h : b.setCellE r c v = .ok b') :
    b' = b.updateCell r c v ∧ r < b.rows ∧ c < b.cols := by
  unfold Board.setCellE at h
  cases hrow : b.grid[r]? with
  | none => rw [hrow] at h; exact absurd h (by simp)
  | some row =>
    simp only [hrow] at h
    by_cases hc : c < b.cols
    · rw [if_pos hc] at h
      simp only [Except.ok.injEq] at h
      have hlen : row.length = b.cols := hwf.2 row (List.getElem?_mem hrow)
      have hr : r < b.rows := by
        have hlt : r < b.grid.length := by
          by_contra hge
          rw [List.getElem?_eq_none (by omega)] at hrow
          exact Option.noConfusion hrow
        have hgl := hwf.1
        omega
      refine ⟨?_, hr, hc⟩
      rw [← h]
      unfold Board.updateCell setPad
      rw [hrow]
      simp only [Option.getD_some]
      rw [if_pos (by omega)]
    · rw [if_neg hc] at h
      exact absurd h (by simp)

theorem settleFinish_cellAt (p : String) (res : Board × Option Err) (q : Pos) :
    (settleFinish p res).1.cellAt q = res.1.cellAt q := by
  obtain ⟨bM, eM⟩ := res
  cases eM with
  | some e => rfl
  | none =>
    simp only [settleFinish]
    split <;> rfl

theorem cellAt_set_firstSelection (b : Board) (x : List (String × Pos))
    (q : Pos) : Board.cellAt { b with firstSelection := x } q = b.cellAt q := rfl

theorem flipDown_gridWF (b : Board) (q : Pos) (hwf : b.gridWF) :
    (b.flipDownIfFree q).1.gridWF := by
  unfold Board.flipDownIfFree
  cases b.getCellE q.r q.c with
  | error e => exact hwf
  | ok cell =>
    cases cell with
    | none => exact hwf
    | some s =>
      dsimp only
      by_cases hcond : s.faceUp = true ∧ s.controller = none
      · rw [if_pos hcond]
        exact updateCell_gridWF b q.r q.c _ hwf
      · rw [if_neg hcond]
        exact hwf

theorem settleStep_gridWF (b : Board) (outcome : Outcome) (hwf : b.gridWF) :
    (b.settleStep outcome).1.gridWF := by
  cases outcome with
  | matched fst snd =>
    simp only [Board.settleStep]
    cases hA : b.setCellE fst.r fst.c none with
    | error e => exact hwf
    | ok bA =>
      dsimp only
      have hbA : bA.gridWF := by
        obtain ⟨heq, _, _⟩ := setCellE_ok_inv b bA fst.r fst.c none hwf hA
        rw [heq]
        exact updateCell_gridWF b fst.r fst.c none hwf
      cases hB : bA.setCellE snd.r snd.c none with
      | error e => exact hbA
      | ok bB =>
        dsimp only
        obtain ⟨heq, _, _⟩ := setCellE_ok_inv bA bB snd.r snd.c none hbA hB
        rw [heq]
        exact updateCell_gridWF bA snd.r snd.c none hbA
  | mismatched fst snd =>
    simp only [Board.settleStep]
    have hA := flipDown_gridWF b fst hwf
    rcases hAres : b.flipDownIfFree fst with ⟨bA, eA⟩
    rw [hAres] at hA
    cases eA with
    | some e => exact hA
    | none => exact flipDown_gridWF bA snd hA

theorem settleFinish_gridWF (p : String) (res : Board × Option Err)
    (h : res.1.gridWF) : (settleFinish p res).1.gridWF := by
  obtain ⟨bM, eM⟩ := res
  cases eM with
  | some e => exact h
  | none =>
    simp only [settleFinish]
    split
    · exact h
    · exact h

theorem settle_gridWF (b : Board) (p : String) (hwf : b.gridWF) :
    (b.settleBeforeNewFirstMove p).1.gridWF := by
  unfold Board.settleBeforeNewFirstMove
  cases hp : b.pendingOf p with
  | none => exact hwf
  | some outcome => exact settleFinish_gridWF p _ (settleStep_gridWF b outcome hwf)

theorem flipDown_preserves_none (b : Board) (fst q : Pos)
    (h : b.cellAt q = none) : (b.flipDownIfFree fst).1.cellAt q = none := by
  unfold Board.flipDownIfFree
  cases hg : b.getCellE fst.r fst.c with
  | error e => exact h
  | ok cell =>
    cases cell with
    | none => exact h
    | some s =>
      dsimp only
      by_cases hcond : s.faceUp = true ∧ s.controller = none
      · rw [if_pos hcond]
        dsimp only
        have hfst : b.cellAt fst = some s := getCellE_ok_inv b fst.r fst.c _ hg
        have hne : fst.r ≠ q.r ∨ fst.c ≠ q.c := by
          by_contra hcontra
          push_neg at hcontra
          have : fst = q := by
            cases fst; cases q
            simp only at hcontra
            rw [hcontra.1, hcontra.2]
          rw [this, h] at hfst
          exact Option.noConfusion hfst
        rw [cellAt_updateCell_ne b fst q _ hne]
        exact h
      · rw [if_neg hcond]
        exact h

theorem settle_preserves_none (b : Board) (p : String) (q : Pos)
    (hwf : b.gridWF) (h : b.cellAt q = none) :
    (b.settleBeforeNewFirstMove p).1.cellAt q = none := by
  unfold Board.settleBeforeNewFirstMove
  cases hp : b.pendingOf p with
  | none => exact h
  | some outcome =>
    rw [settleFinish_cellAt]
    cases outcome with
    | matched fst snd =>
      simp only [Board.settleStep]
      cases hA : b.setCellE fst.r fst.c none with
      | error e => exact h
      | ok bA =>
        dsimp only
        obtain ⟨heqA, _, _⟩ := setCellE_ok_inv b bA fst.r fst.c none hwf hA
        have hbAwf : bA.gridWF := by
          rw [heqA]; exact updateCell_gridWF b fst.r fst.c none hwf
        have hbAnone : bA.cellAt q = none := by
          rw [heqA]
          rcases cellAt_updateCell b fst q none with hh | hh
          · exact hh
          · rw [hh]; exact h
        cases hB : bA.setCellE snd.r snd.c none with
        | error e => exact hbAnone
        | ok bB =>
          dsimp only
          obtain ⟨heqB, _, _⟩ := setCellE_ok_inv bA bB snd.r snd.c none hbAwf hB
          rw [heqB]
          rcases cellAt_updateCell bA snd q none with hh | hh
          · exact hh
          · rw [hh]; exact hbAnone
    | mismatched fst snd =>
      simp only [Board.settleStep]
      have hA := flipDown_preserves_none b fst q h
      rcases hAres : b.flipDownIfFree fst with ⟨bA, eA⟩
      rw [hAres] at hA
      cases eA with
      | some e => exact hA
      | none => exact flipDown_preserves_none bA snd q hA

theorem finishFlipFirst_fst (b : Board) (pos : Pos) (who : String) :
    (Board.finishFlipFirst b pos who).1
      = { b with firstSelection := mapSet b.firstSelection who pos } := by
  simp only [Board.finishFlipFirst]
  split <;> rfl

theorem settle_matched_eq (b : Board) (p : String) (a bb : Pos)
    (hp : b.pendingOf p = some (.matched a bb)) (hwf : b.gridWF)
    (ha : b.within a) (hb : b.within bb) :
    b.settleBeforeNewFirstMove p
      = settleFinish p
          ((b.updateCell a.r a.c none).updateCell bb.r bb.c none, none) := by
  obtain ⟨rowA, hrowA, hlenA⟩ := gridWF_row b hwf a.r ha.1
  have hstep1 : b.setCellE a.r a.c none = .ok (b.updateCell a.r a.c none) :=
    setCellE_ok_eq b a.r a.c none rowA hrowA hlenA ha.2
  have hwf1 : (b.updateCell a.r a.c none).gridWF :=
    updateCell_gridWF b a.r a.c none hwf
  have hb' : (b.updateCell a.r a.c none).within bb := hb
  obtain ⟨rowB, hrowB, hlenB⟩ :=
    gridWF_row (b.updateCell a.r a.c none) hwf1 bb.r hb'.1
  have hstep2 : (b.updateCell a.r a.c none).setCellE bb.r bb.c none
      = .ok ((b.updateCell a.r a.c none).updateCell bb.r bb.c none) :=
    setCellE_ok_eq _ bb.r bb.c none rowB hrowB hlenB hb'.2
  unfold Board.settleBeforeNewFirstMove Board.settleStep
  rw [hp]
  dsimp only
  rw [hstep1]
  dsimp only
  rw [hstep2]

theorem settle_matched_ok (b : Board) (p : String) (a bb : Pos)
    (hp : b.pendingOf p = some (.matched a bb)) (hwf : b.gridWF)
    (ha : b.within a) (hb : b.within bb) (hcr : b.checkRepB = true) :
    b.settleBeforeNewFirstMove p
      = ({ (b.updateCell a.r a.c none).updateCell bb.r bb.c none with
           pending := mapSet
             ((b.updateCell a.r a.c none).updateCell bb.r bb.c none).pending
             p none }, none) := by
  have hcrA : (b.updateCell a.r a.c none).checkRepB = true :=
    checkRep_updateCell b a none hcr (fun s' h => Option.noConfusion h)
  have hcrB : ((b.updateCell a.r a.c none).updateCell bb.r bb.c none).checkRepB
      = true :=
    checkRep_updateCell _ bb none hcrA (fun s' h => Option.noConfusion h)
  have hcrP : Board.checkRepB
      { (b.updateCell a.r a.c none).updateCell bb.r bb.c none with
        pending := mapSet
          ((b.updateCell a.r a.c none).updateCell bb.r bb.c none).pending
          p none } = true :=
    checkRep_set_pending _ hcrB p none (fun o h => Option.noConfusion h)
  rw [settle_matched_eq b p a bb hp hwf ha hb]
  simp only [settleFinish]
  rw [if_pos hcrP]

instance (b : Board) : Decidable b.gridWF :=
  inferInstanceAs
    (Decidable (b.grid.length = b.rows ∧ ∀ row ∈ b.grid, row.length = b.cols))

/-- C10: a player whose pending outcome is `Matched{a,b}` gets EmptySpaceError
(rule 1-A) from a subsequent `flipFirst` at either of the two matched
positions: settlement removes both slots before the empty-space check runs. -/
theorem claim_C10_rematch_fails (b : Board) (p : String) (a bb : Pos)
    (hp : b.pendingOf p = some (.matched a bb)) (hwf : b.gridWF)
    (ha : b.within a) (hb : b.within bb) (hcr : b.checkRepB = true) :
    (b.flipFirst a p).2 = some Err.emptyFirst
    ∧ (b.flipFirst bb p).2 = some Err.emptyFirst := by
  have hs := settle_matched_ok b p a bb hp hwf ha hb hcr
  set bU := (b.updateCell a.r a.c none).updateCell bb.r bb.c none with hbU
  set bP : Board := { bU with pending := mapSet bU.pending p none } with hbP
  have hwfU : bU.gridWF := by
    rw [hbU]
    exact updateCell_gridWF _ bb.r bb.c none
      (updateCell_gridWF b a.r a.c none hwf)
  have hwfP : bP.gridWF := hwfU
  have hwithinA : bP.within a := ha
  have hwithinB : bP.within bb := hb
  have hcellA : bP.cellAt a = none := by
    rw [hbP, cellAt_set_pending, hbU]
    rcases cellAt_updateCell (b.updateCell a.r a.c none) bb a none with h | h
    · exact h
    · rw [h]
      exact cellAt_updateCell_self_wf b a none hwf ha
  have hcellB : bP.cellAt bb = none := by
    rw [hbP, cellAt_set_pending, hbU]
    exact cellAt_updateCell_self_wf (b.updateCell a.r a.c none) bb none
      (updateCell_gridWF b a.r a.c none hwf) hb
  constructor
  · have hff : b.flipFirst a p = (bP, some .emptyFirst) := by
      unfold Board.flipFirst
      rw [hs]
      dsimp only
      rw [slotAtE_ok bP a hwfP hwithinA, hcellA]
    rw [hff]
  · have hff : b.flipFirst bb p = (bP, some .emptyFirst) := by
      unfold Board.flipFirst
      rw [hs]
      dsimp only
      rw [slotAtE_ok bP bb hwfP hwithinB, hcellB]
    rw [hff]

/-- Concrete 1×2 board with a just-matched pair pending for "alice". -/
def boardC10 : Board :=
  { rows := 1, cols := 2,
    grid := [[some { label := "A", faceUp := true, controller := some "alice" },
              some { label := "A", faceUp := true, controller := some "alice" }]],
    firstSelection := [],
    pending := [("alice", some (.matched ⟨0, 0⟩ ⟨0, 1⟩))] }

theorem claim_C10_rematch_fails_witness :
    (boardC10.flipFirst ⟨0, 0⟩ "alice").2 = some Err.emptyFirst
    ∧ (boardC10.flipFirst ⟨0, 1⟩ "alice").2 = some Err.emptyFirst :=
  claim_C10_rematch_fails boardC10 "alice" ⟨0, 0⟩ ⟨0, 1⟩ (by decide)
    (by decide) (by decide) (by decide) (by decide)

/-- C3 (amended): in this implementation (Problem 1, synchronous board) a
`flipFirst` that, after settling, finds the slot face-up and controlled by a
different player fails immediately with the rule 1-D error — the caller is
never suspended; the board is left exactly at the settled state. -/
theorem claim_C3_flipFirst_controlled (b : Board) (pos : Pos)
    (who other : String) (b1 : Board) (s : Slot)
    (hs : b.settleBeforeNewFirstMove who = (b1, none))
    (hwf1 : b1.gridWF) (hpos : b1.within pos) (hcell : b1.cellAt pos = some s)
    (hface : s.faceUp = true) (hctl : s.controller = some other)
    (hne : other ≠ who) :
    b.flipFirst pos who = (b1, some Err.controlledFirst) := by
  unfold Board.flipFirst
  rw [hs]
  dsimp only
  rw [slotAtE_ok b1 pos hwf1 hpos, hcell]
  dsimp only
  rw [if_neg (by rw [hface]; simp)]
  rw [if_neg (by rw [hctl]; simp)]
  rw [if_pos (by rw [hctl]; simp [hne])]

/-- Concrete 1×1 board whose only card is face-up and controlled by "bob". -/
def boardC3 : Board :=
  { rows := 1, cols := 1,
    grid := [[some { label := "A", faceUp := true, controller := some "bob" }]],
    firstSelection := [], pending := [] }

/-- C3 counterexample: `flipFirst` on a slot controlled by another player does
not suspend-then-succeed — it fails, returning the 1-D error and changing
nothing. -/
theorem claim_C3_counterexample :
    (boardC3.flipFirst ⟨0, 0⟩ "alice").2 ≠ none
    ∧ boardC3.flipFirst ⟨0, 0⟩ "alice" = (boardC3, some Err.controlledFirst) := by
  decide

theorem claim_C3_flipFirst_controlled_witness :
    boardC3.flipFirst ⟨0, 0⟩ "alice" = (boardC3, some Err.controlledFirst) :=
  claim_C3_flipFirst_controlled boardC3 ⟨0, 0⟩ "alice" "bob" boardC3
    { label := "A", faceUp := true, controller := some "bob" }
    (by decide) (by decide) (by decide) (by decide) (by decide) (by decide)
    (by decide)

/-- C7 (amended): `flipFirst` on an out-of-bounds position or a position whose
slot is empty fails with an EmptySpaceError-category error and leaves
`firstSelection` (for every player) unchanged; the board is left exactly at
the state produced by settling the caller's pending outcome — settlement runs
first and its mutations persist, so «no state changes» holds only relative to
the settled state. -/
theorem claim_C7_flipFirst_empty (b : Board) (pos : Pos) (who : String)
    (hwf : b.gridWF)
    (hs2 : (b.settleBeforeNewFirstMove who).2 = none)
    (hempty : ¬ b.within pos ∨ b.cellAt pos = none) :
    (b.flipFirst pos who).1 = (b.settleBeforeNewFirstMove who).1
    ∧ (∃ e, (b.flipFirst pos who).2 = some e ∧ e.isEmptySpace = true)
    ∧ (b.flipFirst pos who).1.firstSelection = b.firstSelection := by
  have hs : b.settleBeforeNewFirstMove who
      = ((b.settleBeforeNewFirstMove who).1, none) := by
    rw [← hs2]
  set b1 := (b.settleBeforeNewFirstMove who).1 with hb1
  have hdims := settle_fields b who
  rw [← hb1] at hdims
  have hwithin_iff : b1.within pos ↔ b.within pos := by
    unfold Board.within
    rw [hdims.1, hdims.2.1]
  have hwf1 : b1.gridWF := by rw [hb1]; exact settle_gridWF b who hwf
  have hoobCase : ∀ hnw : ¬ b1.within pos,
      b.flipFirst pos who = (b1, some (.oobFirst pos.r pos.c)) := by
    intro hnw
    have hslot : b1.slotAtE pos = .error (.oobFirst pos.r pos.c) := by
      unfold Board.slotAtE
      rw [if_neg hnw]
    unfold Board.flipFirst
    rw [hs]
    dsimp only
    rw [hslot]
  rcases hempty with hoob | hnone
  · have hff := hoobCase (fun h => hoob (hwithin_iff.mp h))
    rw [hff]
    exact ⟨rfl, ⟨_, rfl, rfl⟩, hdims.2.2⟩
  · have hnone1 : b1.cellAt pos = none := by
      rw [hb1]
      exact settle_preserves_none b who pos hwf hnone
    by_cases hw : b1.within pos
    · have hff : b.flipFirst pos who = (b1, some .emptyFirst) := by
        unfold Board.flipFirst
        rw [hs]
        dsimp only
        rw [slotAtE_ok b1 pos hwf1 hw, hnone1]
      rw [hff]
      exact ⟨rfl, ⟨_, rfl, rfl⟩, hdims.2.2⟩
    · have hff := hoobCase hw
      rw [hff]
      exact ⟨rfl, ⟨_, rfl, rfl⟩, hdims.2.2⟩

/-- Concrete 1×2 board with a matched pair pending for "alice"; settlement on
the next first flip removes both cards, so even a failing `flipFirst` mutates
the board. -/
def boardC7 : Board :=
  { rows := 1, cols := 2,
    grid := [[some { label := "A", faceUp := true, controller := some "alice" },
              some { label := "A", faceUp := true, controller := some "alice" }]],
    firstSelection := [],
    pending := [("alice", some (.matched ⟨0, 0⟩ ⟨0, 1⟩))] }

/-- C7 counterexample: with a pending matched pair, `flipFirst` on an
out-of-bounds position does fail in the EmptySpaceError category, but it does
NOT leave the board unchanged — settlement removed the two matched slots
before the failure. -/
theorem claim_C7_counterexample :
    (boardC7.flipFirst ⟨5, 5⟩ "alice").2 = some (Err.oobFirst 5 5)
    ∧ (boardC7.flipFirst ⟨5, 5⟩ "alice").1 ≠ boardC7 := by
  decide

theorem claim_C7_flipFirst_empty_witness :
    (boardC7.flipFirst ⟨5, 5⟩ "alice").1
        = (boardC7.settleBeforeNewFirstMove "alice").1
    ∧ (∃ e, (boardC7.flipFirst ⟨5, 5⟩ "alice").2 = some e
        ∧ e.isEmptySpace = true)
    ∧ (boardC7.flipFirst ⟨5, 5⟩ "alice").1.firstSelection
        = boardC7.firstSelection :=
  claim_C7_flipFirst_empty boardC7 ⟨5, 5⟩ "alice" (by decide) (by decide)
    (Or.inl (by decide))

/-- C6: a `flipFirst` whose target slot (after settling) is non-empty and not
controlled by a different player: a face-down slot becomes face-up controlled
by the caller (rule 1-B); a face-up uncontrolled slot gets the caller as
controller (rule 1-C); a slot already controlled by the caller is left
unchanged (idempotent re-selection); in all three cases
`firstSelection[player]` is set to the position. -/
theorem claim_C6_flipFirst_success (b : Board) (pos : Pos) (who : String)
    (b1 : Board) (s : Slot)
    (hs : b.settleBeforeNewFirstMove who = (b1, none))
    (hwf1 : b1.gridWF) (hpos : b1.within pos) (hcell : b1.cellAt pos = some s)
    (hnotother : s.faceUp = false ∨ s.controller = none
      ∨ s.controller = some who) :
    (s.faceUp = false →
      (b.flipFirst pos who).1.cellAt pos
        = some { s with faceUp := true, controller := some who })
    ∧ (s.faceUp = true → s.controller = none →
      (b.flipFirst pos who).1.cellAt pos
        = some { s with controller := some who })
    ∧ (s.faceUp = true → s.controller = some who →
      (b.flipFirst pos who).1
        = { b1 with firstSelection := mapSet b1.firstSelection who pos })
    ∧ mapGet (b.flipFirst pos who).1.firstSelection who = some pos := by
  by_cases hface : s.faceUp = false
  · have hmain : b.flipFirst pos who
        = Board.finishFlipFirst
            (b1.updateCell pos.r pos.c
              (some { s with faceUp := true, controller := some who }))
            pos who := by
      unfold Board.flipFirst
      rw [hs]
      dsimp only
      rw [slotAtE_ok b1 pos hwf1 hpos, hcell]
      dsimp only
      rw [if_pos hface]
    refine ⟨?_, ?_, ?_, ?_⟩
    · intro _
      rw [hmain, finishFlipFirst_fst, cellAt_set_firstSelection]
      exact cellAt_updateCell_self_wf b1 pos _ hwf1 hpos
    · intro hcontra
      rw [hface] at hcontra
      exact absurd hcontra (by simp)
    · intro hcontra
      rw [hface] at hcontra
      exact absurd hcontra (by simp)
    · rw [hmain, finishFlipFirst_fst]
      exact mapGet_set_self _ who pos
  · have hfaceT : s.faceUp = true := by
      revert hface
      cases s.faceUp <;> simp
    by_cases hctl : s.controller = none
    · have hmain : b.flipFirst pos who
          = Board.finishFlipFirst
              (b1.updateCell pos.r pos.c
                (some { s with controller := some who }))
              pos who := by
        unfold Board.flipFirst
        rw [hs]
        dsimp only
        rw [slotAtE_ok b1 pos hwf1 hpos, hcell]
        dsimp only
        rw [if_neg hface, if_pos hctl]
      refine ⟨?_, ?_, ?_, ?_⟩
      · intro hcontra
        exact absurd hcontra hface
      · intro _ _
        rw [hmain, finishFlipFirst_fst, cellAt_set_firstSelection]
        exact cellAt_updateCell_self_wf b1 pos _ hwf1 hpos
      · intro _ hcontra
        rw [hctl] at hcontra
        exact absurd hcontra (by simp)
      · rw [hmain, finishFlipFirst_fst]
        exact mapGet_set_self _ who pos
    · have hctlWho : s.controller = some who := by
        rcases hnotother with h | h | h
        · exact absurd h hface
        · exact absurd h hctl
        · exact h
      have hmain : b.flipFirst pos who = Board.finishFlipFirst b1 pos who := by
        unfold Board.flipFirst
        rw [hs]
        dsimp only
        rw [slotAtE_ok b1 pos hwf1 hpos, hcell]
        dsimp only
        rw [if_neg hface, if_neg hctl]
        rw [if_neg (by rw [hctlWho]; simp)]
      refine ⟨?_, ?_, ?_, ?_⟩
      · intro hcontra
        exact absurd hcontra hface
      · intro _ hcontra
        rw [hctlWho] at hcontra
        exact absurd hcontra (by simp)
      · intro _ _
        rw [hmain, finishFlipFirst_fst]
      · rw [hmain, finishFlipFirst_fst]
        exact mapGet_set_self _ who pos

/-- Concrete 2×1 board, both cards face-down, no transient state. -/
def boardC6 : Board :=
  { rows := 2, cols := 1,
    grid := [[some { label := "A", faceUp := false, controller := none }],
             [some { label := "B", faceUp := false, controller := none }]],
    firstSelection := [], pending := [] }

theorem claim_C6_flipFirst_success_witness :
    ((boardC6.flipFirst ⟨0, 0⟩ "alice").1.cellAt ⟨0, 0⟩
      = some { label := "A", faceUp := true, controller := some "alice" })
    ∧ mapGet (boardC6.flipFirst ⟨0, 0⟩ "alice").1.firstSelection "alice"
      = some ⟨0, 0⟩ := by
  have h := claim_C6_flipFirst_success boardC6 ⟨0, 0⟩ "alice" boardC6
    { label := "A", faceUp := false, controller := none }
    (by decide) (by decide) (by decide) (by decide) (Or.inl (by decide))
  exact ⟨h.1 (by decide), h.2.2.2⟩

/-- Concrete 1×2 board with a mismatched pair pending for "alice": the first
card is face-up and uncontrolled (will flip down), the second face-up but
since taken by "bob" (stays up). -/
def boardC1 : Board :=
  { rows := 1, cols := 2,
    grid := [[some { label := "A", faceUp := true, controller := none },
              some { label := "B", faceUp := true, controller := some "bob" }]],
    firstSelection := [],
    pending := [("alice", some (.mismatched ⟨0, 0⟩ ⟨0, 1⟩))] }

theorem claim_C1_settle_witness :
    (boardC1.settleBeforeNewFirstMove "alice").1.cellAt ⟨0, 0⟩
      = settledCell (boardC1.cellAt ⟨0, 0⟩)
    ∧ (boardC1.settleBeforeNewFirstMove "alice").1.cellAt ⟨0, 1⟩
      = settledCell (boardC1.cellAt ⟨0, 1⟩)
    ∧ (boardC1.settleBeforeNewFirstMove "alice").1.pendingOf "alice" = none :=
  (claim_C1_settle boardC1 "alice").2.2 ⟨0, 0⟩ ⟨0, 1⟩ (by decide) (by decide)
    (by decide) (by decide) (by decide)

theorem fst_ite_pair (c : Prop) [Decidable c] (x : Board) (e e' : Option Err) :
    (if c then (x, e) else (x, e')).1 = x := by
  split <;> rfl

theorem relinquish_spec (b : Board) (who : String) (first : Pos) (s1 : Slot)
    (hf : mapGet b.firstSelection who = some first)
    (hwithin : b.within first) (hcell : b.cellAt first = some s1)
    (hwf : b.gridWF) (hcr : b.checkRepB = true) :
    b.relinquishFirstOnly who
      = ({ b.updateCell first.r first.c (some { s1 with controller := none })
           with firstSelection :=
             mapDel (b.updateCell first.r first.c
               (some { s1 with controller := none })).firstSelection who },
         none) := by
  have hcrU : (b.updateCell first.r first.c
      (some { s1 with controller := none })).checkRepB = true := by
    refine checkRep_updateCell b first _ hcr ?_
    intro s' h
    obtain ⟨hca, _⟩ := checkRep_cell b hcr first s1 hcell
    cases h
    exact ⟨hca, Or.inr rfl⟩
  have hcr2 : Board.checkRepB
      { b.updateCell first.r first.c (some { s1 with controller := none })
        with firstSelection :=
          mapDel (b.updateCell first.r first.c
            (some { s1 with controller := none })).firstSelection who }
      = true := by
    rw [checkRep_set_firstSelection]
    exact hcrU
  unfold Board.relinquishFirstOnly
  rw [hf]
  dsimp only
  rw [slotAtE_ok b first hwf hwithin, hcell]
  dsimp only
  rw [if_pos hcr2]

theorem cellAt_set_pending_firstSel (bM : Board)
    (x : List (String × Option Outcome)) (y : List (String × Pos)) (q : Pos) :
    Board.cellAt { bM with pending := x, firstSelection := y } q
      = bM.cellAt q := rfl

theorem flipSecondResolve_spec (b1 : Board) (first pos : Pos) (who : String)
    (s1 s2u : Slot) (hwf1 : b1.gridWF) (hwp : b1.within pos)
    (hw1 : b1.within first) (hne : pos ≠ first) :
    (b1.flipSecondResolve first pos who s1 s2u).1.cellAt pos
      = some { s2u with controller :=
          if s1.label = s2u.label then some who else none }
    ∧ (b1.flipSecondResolve first pos who s1 s2u).1.cellAt first
      = some { s1 with controller :=
          if s1.label = s2u.label then some who else none }
    ∧ (b1.flipSecondResolve first pos who s1 s2u).1.pendingOf who
      = some (if s1.label = s2u.label then Outcome.matched first pos
              else Outcome.mismatched first pos)
    ∧ mapGet (b1.flipSecondResolve first pos who s1 s2u).1.firstSelection who
      = none := by
  have hne' := (pos_ne_iff pos first).mp hne
  unfold Board.flipSecondResolve
  dsimp only
  rw [fst_ite_pair]
  have hwf2 : (b1.updateCell first.r first.c
      (some { s1 with controller :=
        if s1.label = s2u.label then some who else none })).gridWF :=
    updateCell_gridWF b1 first.r first.c _ hwf1
  refine ⟨?_, ?_, ?_, ?_⟩
  · rw [cellAt_set_pending_firstSel]
    exact cellAt_updateCell_self_wf _ pos _ hwf2 hwp
  · rw [cellAt_set_pending_firstSel]
    rw [cellAt_updateCell_ne _ pos first _ hne']
    exact cellAt_updateCell_self_wf b1 first _ hwf1 hw1
  · unfold Board.pendingOf
    dsimp only
    rw [mapGet_set_self]
    rfl
  · dsimp only
    exact mapGet_del_self _ who

/-- C5: while `firstSelection[player]` is set, a `flipSecond` whose target is
out of bounds or empty releases the first slot (controller cleared, face
orientation untouched), clears `firstSelection[player]` and fails with
EmptySpaceError (2-A); a `flipSecond` whose target is face-up and controlled
by anyone does the same release and fails with ControlledError (2-B), never
blocking. -/
theorem claim_C5_flipSecond_errors (b : Board) (pos : Pos) (who : String)
    (first : Pos) (s1 : Slot)
    (hf : mapGet b.firstSelection who = some first)
    (hwithin1 : b.within first) (hcell1 : b.cellAt first = some s1)
    (hwf : b.gridWF) (hcr : b.checkRepB = true) :
    ((¬ b.within pos ∨ b.cellAt pos = none) →
      (b.flipSecond pos who).2 = some Err.emptySecond
      ∧ (b.flipSecond pos who).1.cellAt first
          = some { s1 with controller := none }
      ∧ mapGet (b.flipSecond pos who).1.firstSelection who = none)
    ∧ (∀ s2 : Slot, b.within pos → b.cellAt pos = some s2 →
        s2.faceUp = true → s2.controller ≠ none →
        (b.flipSecond pos who).2 = some Err.controlledSecond
        ∧ (b.flipSecond pos who).1.cellAt first
            = some { s1 with controller := none }
        ∧ mapGet (b.flipSecond pos who).1.firstSelection who = none) := by
  have hrel := relinquish_spec b who first s1 hf hwithin1 hcell1 hwf hcr
  have hcellRel : Board.cellAt
      { b.updateCell first.r first.c (some { s1 with controller := none })
        with firstSelection :=
          mapDel (b.updateCell first.r first.c
            (some { s1 with controller := none })).firstSelection who }
      first = some { s1 with controller := none } := by
    rw [cellAt_set_firstSelection]
    exact cellAt_updateCell_self_wf b first _ hwf hwithin1
  have hfsRel : mapGet
      (Board.firstSelection
        { b.updateCell first.r first.c (some { s1 with controller := none })
          with firstSelection :=
            mapDel (b.updateCell first.r first.c
              (some { s1 with controller := none })).firstSelection who })
      who = none := mapGet_del_self _ who
  constructor
  · intro hempty
    have hs2E : (if b.within pos then b.getCellE pos.r pos.c
        else Except.ok none) = Except.ok (none : Option Slot) := by
      rcases hempty with h | h
      · rw [if_neg h]
      · by_cases hw : b.within pos
        · rw [if_pos hw, getCellE_ok b pos hwf hw.1, h]
        · rw [if_neg hw]
    have hmain : b.flipSecond pos who
        = ({ b.updateCell first.r first.c (some { s1 with controller := none })
             with firstSelection :=
               mapDel (b.updateCell first.r first.c
                 (some { s1 with controller := none })).firstSelection who },
           some Err.emptySecond) := by
      unfold Board.flipSecond
      rw [hf]
      dsimp only
      rw [hs2E]
      dsimp only
      rw [hrel]
    rw [hmain]
    exact ⟨rfl, hcellRel, hfsRel⟩
  · intro s2 hw hcell2 hfaceT hctlT
    have hs2E : (if b.within pos then b.getCellE pos.r pos.c
        else Except.ok none) = Except.ok (some s2) := by
      rw [if_pos hw, getCellE_ok b pos hwf hw.1, hcell2]
    have hmain : b.flipSecond pos who
        = ({ b.updateCell first.r first.c (some { s1 with controller := none })
             with firstSelection :=
               mapDel (b.updateCell first.r first.c
                 (some { s1 with controller := none })).firstSelection who },
           some Err.controlledSecond) := by
      unfold Board.flipSecond
      rw [hf]
      dsimp only
      rw [hs2E]
      dsimp only
      rw [if_pos ⟨hfaceT, hctlT⟩]
      rw [hrel]
    rw [hmain]
    exact ⟨rfl, hcellRel, hfsRel⟩

/-- Concrete 1×2 board where "alice" holds (0,0) as her first selection and
(0,1) holds an empty space. -/
def boardC5 : Board :=
  { rows := 1, cols := 2,
    grid := [[some { label := "A", faceUp := true, controller := some "alice" },
              none]],
    firstSelection := [("alice", ⟨0, 0⟩)], pending := [] }

theorem claim_C5_flipSecond_errors_witness :
    (boardC5.flipSecond ⟨0, 1⟩ "alice").2 = some Err.emptySecond
    ∧ (boardC5.flipSecond ⟨0, 1⟩ "alice").1.cellAt ⟨0, 0⟩
        = some { label := "A", faceUp := true, controller := none }
    ∧ mapGet (boardC5.flipSecond ⟨0, 1⟩ "alice").1.firstSelection "alice"
        = none :=
  (claim_C5_flipSecond_errors boardC5 ⟨0, 1⟩ "alice" ⟨0, 0⟩
    { label := "A", faceUp := true, controller := some "alice" }
    (by decide) (by decide) (by decide) (by decide) (by decide)).1
    (Or.inr (by decide))

/-- C4: a `flipSecond` that passes the empty and controlled checks: a
face-down target is set face-up without altering its controller (2-C), then
the first-selected slot's label is compared with the target's; on a match
both slots' controller becomes the player and `pending[player]` records
`Matched(first, pos)` (2-D); on a mismatch both controllers become `None` with
both slots face-up and `pending[player]` records `Mismatched(first, pos)`
(2-E); in either case `firstSelection[player]` is cleared. -/
theorem claim_C4_flipSecond_success (b : Board) (pos : Pos) (who : String)
    (first : Pos) (s1 s2 : Slot)
    (hf : mapGet b.firstSelection who = some first)
    (hwf : b.gridWF)
    (hw2 : b.within pos) (hcell2 : b.cellAt pos = some s2)
    (hnotctl : ¬(s2.faceUp = true ∧ s2.controller ≠ none))
    (hw1 : b.within first) (hcell1 : b.cellAt first = some s1)
    (hne : pos ≠ first) :
    (b.flipSecond pos who).1.cellAt pos
      = some { label := s2.label, faceUp := true,
               controller := if s1.label = s2.label then some who else none }
    ∧ (b.flipSecond pos who).1.cellAt first
      = some { s1 with controller :=
          if s1.label = s2.label then some who else none }
    ∧ (b.flipSecond pos who).1.pendingOf who
      = some (if s1.label = s2.label then Outcome.matched first pos
              else Outcome.mismatched first pos)
    ∧ mapGet (b.flipSecond pos who).1.firstSelection who = none := by
  have hs2E : (if b.within pos then b.getCellE pos.r pos.c
      else Except.ok none) = Except.ok (some s2) := by
    rw [if_pos hw2, getCellE_ok b pos hwf hw2.1, hcell2]
  by_cases hface : s2.faceUp = true
  · have hslot1 : b.slotAtE first = .ok (some s1) := by
      rw [slotAtE_ok b first hwf hw1, hcell1]
    have hmain : b.flipSecond pos who
        = b.flipSecondResolve first pos who s1 s2 := by
      unfold Board.flipSecond
      rw [hf]
      dsimp only
      rw [hs2E]
      dsimp only
      rw [if_neg hnotctl]
      rw [if_pos hface, if_pos hface, hslot1]
    obtain ⟨h1, h2, h3, h4⟩ :=
      flipSecondResolve_spec b first pos who s1 s2 hwf hw2 hw1 hne
    rw [hface] at h1
    rw [hmain]
    exact ⟨h1, h2, h3, h4⟩
  · have hcellb1first :
        (b.updateCell pos.r pos.c (some { s2 with faceUp := true })).cellAt
          first = some s1 := by
      rw [cellAt_updateCell_ne b pos first _ ((pos_ne_iff pos first).mp hne)]
      exact hcell1
    have hwfb1 : (b.updateCell pos.r pos.c
        (some { s2 with faceUp := true })).gridWF :=
      updateCell_gridWF b pos.r pos.c _ hwf
    have hslot1 : (b.updateCell pos.r pos.c
        (some { s2 with faceUp := true })).slotAtE first = .ok (some s1) := by
      rw [slotAtE_ok _ first hwfb1 hw1, hcellb1first]
    have hmain : b.flipSecond pos who
        = (b.updateCell pos.r pos.c
            (some { s2 with faceUp := true })).flipSecondResolve
            first pos who s1 { s2 with faceUp := true } := by
      unfold Board.flipSecond
      rw [hf]
      dsimp only
      rw [hs2E]
      dsimp only
      rw [if_neg hnotctl]
      rw [if_neg hface, if_neg hface, hslot1]
    obtain ⟨h1, h2, h3, h4⟩ :=
      flipSecondResolve_spec (b.updateCell pos.r pos.c
        (some { s2 with faceUp := true })) first pos who s1
        { s2 with faceUp := true } hwfb1 hw2 hw1 hne
    rw [hmain]
    exact ⟨h1, h2, h3, h4⟩

/-- Concrete 1×2 board where "alice" holds (0,0) ("A", face-up) as her first
selection and (0,1) holds the matching face-down "A". -/
def boardC4 : Board :=
  { rows := 1, cols := 2,
    grid := [[some { label := "A", faceUp := true, controller := some "alice" },
              some { label := "A", faceUp := false, controller := none }]],
    firstSelection := [("alice", ⟨0, 0⟩)], pending := [] }

theorem claim_C4_flipSecond_success_witness :
    (boardC4.flipSecond ⟨0, 1⟩ "alice").1.cellAt ⟨0, 1⟩
      = some { label := "A", faceUp := true,
               controller := if "A" = "A" then some "alice" else none }
    ∧ (boardC4.flipSecond ⟨0, 1⟩ "alice").1.cellAt ⟨0, 0⟩
      = some { label := "A", faceUp := true,
               controller := if "A" = "A" then some "alice" else none }
    ∧ (boardC4.flipSecond ⟨0, 1⟩ "alice").1.pendingOf "alice"
      = some (if "A" = "A" then Outcome.matched ⟨0, 0⟩ ⟨0, 1⟩
              else Outcome.mismatched ⟨0, 0⟩ ⟨0, 1⟩)
    ∧ mapGet (boardC4.flipSecond ⟨0, 1⟩ "alice").1.firstSelection "alice"
      = none :=
  claim_C4_flipSecond_success boardC4 ⟨0, 1⟩ "alice" ⟨0, 0⟩
    { label := "A", faceUp := true, controller := some "alice" }
    { label := "A", faceUp := false, controller := none }
    (by decide) (by decide) (by decide) (by decide) (by decide) (by decide)
    (by decide) (by decide)

theorem mapME_ok {α β : Type} (f : α → Except Err β) (g : α → β) (l : List α)
    (h : ∀ x ∈ l, f x = .ok (g x)) : mapME f l = .ok (l.map g) := by
  induction l with
  | nil => rfl
  | cons x xs ih =>
    have hx := h x (List.mem_cons_self x xs)
    have hxs := ih (fun y hy => h y (List.mem_cons_of_mem _ hy))
    simp only [mapME, hx, hxs, List.map]

theorem mapME_ok_inv {α β : Type} (f : α → Except Err β) (l : List α)
    (ys : List β) (h : mapME f l = .ok ys) :
    List.Forall₂ (fun x y => f x = .ok y) l ys := by
  induction l generalizing ys with
  | nil =>
    simp only [mapME, Except.ok.injEq] at h
    rw [← h]
    exact List.Forall₂.nil
  | cons x xs ih =>
    simp only [mapME] at h
    cases hx : f x with
    | error e => rw [hx] at h; exact absurd h (by simp)
    | ok y =>
      rw [hx] at h
      cases hxs : mapME f xs with
      | error e => rw [hxs] at h; exact absurd h (by simp)
      | ok ys' =>
        rw [hxs] at h
        simp only [Except.ok.injEq] at h
        rw [← h]
        exact List.Forall₂.cons hx (ih ys' hxs)

theorem forall₂_getElem? {α β : Type} {R : α → β → Prop} {l : List α}
    {ys : List β} (h : List.Forall₂ R l ys) :
    ∀ (i : Nat) (x : α) (y : β), l[i]? = some x → ys[i]? = some y → R x y := by
  induction h with
  | nil => intro i x y hx _; simp at hx
  | cons hR _ ih =>
    intro i x y hx hy
    cases i with
    | zero =>
      simp only [List.getElem?_cons_zero, Option.some.injEq] at hx hy
      rw [← hx, ← hy]
      exact hR
    | succ n =>
      simp only [List.getElem?_cons_succ] at hx hy
      exact ih n x y hx hy

theorem mem_rowMajorIdx (rows cols : Nat) (rc : Nat × Nat) :
    rc ∈ rowMajorIdx rows cols ↔ rc.1 < rows ∧ rc.2 < cols := by
  simp only [rowMajorIdx, List.mem_flatMap, List.mem_map, List.mem_range]
  constructor
  · rintro ⟨r, hr, c, hc, heq⟩
    rw [← heq]
    exact ⟨hr, hc⟩
  · rintro ⟨h1, h2⟩
    exact ⟨rc.1, h1, rc.2, h2, rfl⟩

theorem mkCell_ok_inv (labels : List String) (idx : Nat) (cell : Option Slot)
    (h : mkCell labels idx = .ok cell) :
    ∃ lab, labels[idx]? = some lab
      ∧ cell = some { label := lab, faceUp := false, controller := none } := by
  unfold mkCell at h
  cases hl : labels[idx]? with
  | none => rw [hl] at h; exact absurd h (by simp)
  | some lab =>
    rw [hl] at h
    simp only [Except.ok.injEq] at h
    exact ⟨lab, rfl, h.symm⟩

theorem construct_ok_inv (rows cols : Nat) (labels : List String) (b : Board)
    (h : Board.construct rows cols labels = .ok b) :
    b.rows = rows ∧ b.cols = cols ∧ b.gridWF
    ∧ (∀ q : Pos, b.within q →
        ∃ lab, b.cellAt q
          = some { label := lab, faceUp := false, controller := none })
    ∧ b.firstSelection = [] ∧ b.pending = [] := by
  unfold Board.construct at h
  cases hg : mapME (fun r => mapME (fun c => mkCell labels (r * cols + c))
      (List.range cols)) (List.range rows) with
  | error e => rw [hg] at h; exact absurd h (by simp)
  | ok grid =>
    rw [hg] at h
    dsimp only at h
    split at h
    case isFalse => exact absurd h (by simp)
    case isTrue hcr =>
    simp only [Except.ok.injEq] at h
    subst h
    have hrows := mapME_ok_inv _ _ _ hg
    have hlen : grid.length = rows := by
      have := hrows.length_eq
      simpa using this.symm
    have hrowfact : ∀ r row, r < rows → grid[r]? = some row →
        mapME (fun c => mkCell labels (r * cols + c)) (List.range cols)
          = .ok row := by
      intro r row hr hrow
      exact forall₂_getElem? hrows r r row (by simp [hr]) hrow
    have hrowlen : ∀ row ∈ grid, row.length = cols := by
      intro row hrow
      obtain ⟨r, hr, hget⟩ := List.getElem_of_mem hrow
      have hr' : r < rows := by omega
      have := mapME_ok_inv _ _ _ (hrowfact r row hr' (by
        rw [List.getElem?_eq_getElem hr]
        rw [hget]))
      have hl := this.length_eq
      simpa using hl.symm
    refine ⟨rfl, rfl, ⟨hlen, hrowlen⟩, ?_, rfl, rfl⟩
    intro q hq
    have hr : q.r < rows := hq.1
    have hc : q.c < cols := hq.2
    have hgr : grid[q.r]? = some grid[q.r] :=
      List.getElem?_eq_getElem (by omega)
    have hrowME := hrowfact q.r grid[q.r] hr hgr
    have hfor := mapME_ok_inv _ _ _ hrowME
    have hcl : grid[q.r].length = cols := by
      have := hfor.length_eq
      simpa using this.symm
    have hcell : grid[q.r][q.c]? = some grid[q.r][q.c] :=
      List.getElem?_eq_getElem (by omega)
    have hmk := forall₂_getElem? hfor q.c q.c grid[q.r][q.c]
      (by simp [hc]) hcell
    obtain ⟨lab, _, hcelleq⟩ := mkCell_ok_inv labels (q.r * cols + q.c) _ hmk
    refine ⟨lab, ?_⟩
    unfold Board.cellAt
    simp only [hgr, hcell]
    rw [hcelleq]
    rfl

/-- The board's cells in the row-major order of `snapshot`'s double loop. -/
def rowMajorCells (b : Board) : List (Option Slot) :=
  (rowMajorIdx b.rows b.cols).map (fun rc => b.cellAt ⟨rc.1, rc.2⟩)

/-- C8: `snapshot(forPlayer)` is a pure function of the board (it mutates
nothing — its type consumes a `Board` and yields a string). It produces the
header line followed, in row-major order, by one line per cell: `none` for an
empty cell, `down` for a face-down slot, `my <label>` for a face-up slot
controlled by `forPlayer`, and `up <label>` otherwise; immediately after
construction the snapshot for every player shows every cell as `down`. -/
theorem claim_C8_snapshot (b : Board) (forPlayer : String) :
    (b.gridWF →
      b.snapshot forPlayer
        = .ok (joinNL ((Nat.repr b.rows ++ "x" ++ Nat.repr b.cols)
            :: (rowMajorCells b).map (fun cell =>
                 match cell with
                 | none => "none"
                 | some s =>
                   if s.faceUp = false then "down"
                   else if s.controller = some forPlayer then "my " ++ s.label
                   else "up " ++ s.label)) ++ "\n"))
    ∧ (∀ rows cols labels, Board.construct rows cols labels = .ok b →
        b.snapshot forPlayer
          = .ok (joinNL ((Nat.repr rows ++ "x" ++ Nat.repr cols)
              :: List.replicate (rows * cols) "down") ++ "\n")) := by
  have hgen : ∀ hwf : b.gridWF,
      b.snapshot forPlayer
        = .ok (joinNL ((Nat.repr b.rows ++ "x" ++ Nat.repr b.cols)
            :: (rowMajorCells b).map (cellLine forPlayer)) ++ "\n") := by
    intro hwf
    unfold Board.snapshot
    rw [mapME_ok _ (fun rc => b.cellAt ⟨rc.1, rc.2⟩) _
      (fun rc hrc => getCellE_ok b ⟨rc.1, rc.2⟩ hwf
        ((mem_rowMajorIdx b.rows b.cols rc).mp hrc).1)]
    dsimp only
    rw [rowMajorCells]
  constructor
  · intro hwf
    exact hgen hwf
  · intro rows cols labels hcon
    obtain ⟨hrows, hcols, hwf, hcells, _, _⟩ :=
      construct_ok_inv rows cols labels b hcon
    rw [hgen hwf, hrows, hcols]
    have hmap : (rowMajorCells b).map (cellLine forPlayer)
        = List.replicate (rows * cols) "down" := by
      have hlen : (rowMajorCells b).length = rows * cols := by
        unfold rowMajorCells rowMajorIdx
        rw [List.length_map, hrows, hcols]
        simp only [List.length_flatMap, Function.comp]
        have h1 : List.map
            (fun r => (List.map (fun c => (r, c)) (List.range cols)).length)
            (List.range rows) = List.replicate rows cols := by
          rw [List.eq_replicate_iff]
          constructor
          · simp
          · intro x hx
            obtain ⟨r, _, hr⟩ := List.mem_map.mp hx
            rw [← hr]
            simp
        rw [show (List.length ∘ fun r =>
              List.map (fun c => (r, c)) (List.range cols))
            = (fun r => (List.map (fun c => (r, c)) (List.range cols)).length)
            from rfl]
        rw [h1]
        simp [List.sum_replicate, smul_eq_mul, Nat.mul_comm]
      have hall : ∀ line ∈ (rowMajorCells b).map (cellLine forPlayer),
          line = "down" := by
        intro line hline
        obtain ⟨cell, hcellmem, hlineeq⟩ := List.mem_map.mp hline
        obtain ⟨rc, hrcmem, hcelleq⟩ := List.mem_map.mp hcellmem
        have hrc := (mem_rowMajorIdx b.rows b.cols rc).mp hrcmem
        obtain ⟨lab, hc⟩ := hcells ⟨rc.1, rc.2⟩ ⟨hrc.1, hrc.2⟩
        rw [← hlineeq, ← hcelleq, hc]
        rfl
      have : (rowMajorCells b).map (cellLine forPlayer)
          = List.replicate ((rowMajorCells b).map (cellLine forPlayer)).length
              "down" :=
        List.eq_replicate_of_mem hall
      rw [this]
      simp [hlen]
    rw [hmap]

/-- The board that `construct 1 2 ["A", "B"]` yields. -/
def boardC8 : Board :=
  { rows := 1, cols := 2,
    grid := [[some { label := "A", faceUp := false, controller := none },
              some { label := "B", faceUp := false, controller := none }]],
    firstSelection := [], pending := [] }

theorem claim_C8_snapshot_witness :
    boardC8.snapshot "alice"
      = .ok (joinNL ((Nat.repr 1 ++ "x" ++ Nat.repr 2)
          :: List.replicate (1 * 2) "down") ++ "\n") :=
  (claim_C8_snapshot boardC8 "alice").2 1 2 ["A", "B"] rfl

theorem mkCell_ok_of_lt (labels : List String) (idx : Nat)
    (h : idx < labels.length) :
    mkCell labels idx
      = .ok (some { label := (labels[idx]?).getD "", faceUp := false,
                    controller := none }) := by
  unfold mkCell
  rw [List.getElem?_eq_getElem h]
  dsimp only
  rfl

theorem idx_lt (r c rows cols : Nat) (hr : r < rows) (hc : c < cols) :
    r * cols + c < rows * cols := by
  have h1 : (r + 1) * cols ≤ rows * cols := Nat.mul_le_mul_right cols (by omega)
  have h2 : r * cols + cols = (r + 1) * cols := by ring
  omega

theorem construct_ok (rows cols : Nat) (labels : List String)
    (hlen : labels.length = rows * cols)
    (hcards : ∀ lab ∈ labels, cardOk lab = true) :
    ∃ b, Board.construct rows cols labels = .ok b := by
  have hinner : ∀ r ∈ List.range rows,
      mapME (fun c => mkCell labels (r * cols + c)) (List.range cols)
        = .ok ((List.range cols).map (fun c =>
            some { label := (labels[r * cols + c]?).getD "",
                   faceUp := false, controller := none })) := by
    intro r hr
    refine mapME_ok _ _ _ ?_
    intro c hc
    refine mkCell_ok_of_lt labels _ ?_
    rw [hlen]
    exact idx_lt r c rows cols (List.mem_range.mp hr) (List.mem_range.mp hc)
  have houter := mapME_ok _ _ _ hinner
  unfold Board.construct
  rw [houter]
  dsimp only
  have hcr : Board.checkRepB
      { rows := rows, cols := cols,
        grid := (List.range rows).map (fun r => (List.range cols).map (fun c =>
          some { label := (labels[r * cols + c]?).getD "",
                 faceUp := false, controller := none })),
        firstSelection := [], pending := [] } = true := by
    refine (checkRepB_eq_true_iff _).mpr ⟨?_, ?_, ?_, ?_⟩
    · simp
    · intro row hrow
      obtain ⟨r, _, hr⟩ := List.mem_map.mp hrow
      rw [← hr]
      simp
    · intro row hrow cell hcell s hs
      obtain ⟨r, hrr, hr⟩ := List.mem_map.mp hrow
      rw [← hr] at hcell
      obtain ⟨c, hcc, hceq⟩ := List.mem_map.mp hcell
      rw [← hceq] at hs
      have hseq := Option.some.inj hs
      rw [← hseq]
      constructor
      · have hidx : r * cols + c < labels.length := by
          rw [hlen]
          exact idx_lt r c rows cols (List.mem_range.mp hrr)
            (List.mem_range.mp hcc)
        rw [List.getElem?_eq_getElem hidx]
        simp only [Option.getD_some]
        exact hcards _ (List.getElem_mem hidx)
      · exact Or.inr rfl
    · intro kv hkv o ho
      simp at hkv
  rw [if_pos hcr]
  exact ⟨_, rfl⟩

/-- C9: parsing a board definition succeeds exactly when the non-blank lines
are a header matching `ROWxCOL` with positive dimensions followed by exactly
`rows*cols` whitespace-free tokens; every violation yields a FormatError with
a diagnostic message (never a partial board — the error carries no board). -/
theorem claim_C9_parse (text : String) :
    ((∃ b, parseBoard text = .ok b) ↔
      (∃ header cards rows cols,
        boardLines text = header :: cards
        ∧ parseHeader header = some (rows, cols)
        ∧ 0 < rows ∧ 0 < cols
        ∧ cards.length = rows * cols
        ∧ ∀ card ∈ cards, cardOk card = true))
    ∧ (∀ e, parseBoard text = .error e → ∃ msg, e = .formatError msg) := by
  constructor
  · constructor
    · rintro ⟨b, hb⟩
      unfold parseBoard at hb
      cases hlines : boardLines text with
      | nil => rw [hlines] at hb; exact absurd hb (by simp)
      | cons header cards =>
        rw [hlines] at hb
        dsimp only at hb
        cases hh : parseHeader header with
        | none => rw [hh] at hb; exact absurd hb (by simp)
        | some rc =>
          obtain ⟨rows, cols⟩ := rc
          rw [hh] at hb
          dsimp only at hb
          by_cases hz : rows = 0 ∨ cols = 0
          · rw [if_pos hz] at hb; exact absurd hb (by simp)
          · rw [if_neg hz] at hb
            by_cases hcnt : cards.length ≠ rows * cols
            · rw [if_pos hcnt] at hb; exact absurd hb (by simp)
            · rw [if_neg hcnt] at hb
              cases hfind : cards.find? (fun card => !cardOk card) with
              | some bad => rw [hfind] at hb; exact absurd hb (by simp)
              | none =>
                refine ⟨header, cards, rows, cols, rfl, hh, ?_, ?_, ?_, ?_⟩
                · omega
                · omega
                · omega
                · intro card hcard
                  have := List.find?_eq_none.mp hfind card hcard
                  simpa using this
    · rintro ⟨header, cards, rows, cols, hlines, hh, hrows, hcols, hlen,
        hcards⟩
      unfold parseBoard
      rw [hlines]
      dsimp only
      rw [hh]
      dsimp only
      rw [if_neg (by omega)]
      rw [if_neg (by omega)]
      have hfind : cards.find? (fun card => !cardOk card) = none := by
        rw [List.find?_eq_none]
        intro x hx
        rw [hcards x hx]
        simp
      rw [hfind]
      exact construct_ok rows cols cards hlen hcards
  · intro e he
    unfold parseBoard at he
    cases hlines : boardLines text with
    | nil =>
      rw [hlines] at he
      dsimp only at he
      exact ⟨_, (Except.error.inj he).symm⟩
    | cons header cards =>
      rw [hlines] at he
      dsimp only at he
      cases hh : parseHeader header with
      | none =>
        rw [hh] at he
        dsimp only at he
        exact ⟨_, (Except.error.inj he).symm⟩
      | some rc =>
        obtain ⟨rows, cols⟩ := rc
        rw [hh] at he
        dsimp only at he
        by_cases hz : rows = 0 ∨ cols = 0
        · rw [if_pos hz] at he
          exact ⟨_, (Except.error.inj he).symm⟩
        · rw [if_neg hz] at he
          by_cases hcnt : cards.length ≠ rows * cols
          · rw [if_pos hcnt] at he
            exact ⟨_, (Except.error.inj he).symm⟩
          · rw [if_neg hcnt] at he
            cases hfind : cards.find? (fun card => !cardOk card) with
            | some bad =>
              rw [hfind] at he
              exact ⟨_, (Except.error.inj he).symm⟩
            | none =>
              rw [hfind] at he
              obtain ⟨b, hb⟩ := construct_ok rows cols cards (by omega) (by
                intro card hcard
                have := List.find?_eq_none.mp hfind card hcard
                simpa using this)
              rw [hb] at he
              exact absurd he (by simp)

/-- Witness text for C9: a well-formed 2×1 board definition parses. -/
theorem claim_C9_parse_witness :
    ∃ b, parseBoard "2x1\nA\nB\n" = .ok b :=
  (claim_C9_parse "2x1\nA\nB\n").1.mpr
    ⟨"2x1", ["A", "B"], 2, 1, by decide, by decide, by decide, by decide,
      by decide, by decide⟩

/-- The claimed invariant: a face-down slot is never controlled. -/
def Board.faceDownFree (b : Board) : Prop :=
  ∀ (q : Pos) (s : Slot), b.cellAt q = some s → s.faceUp = false →
    s.controller = none

/-- Strengthening: a recorded first selection points at an in-bounds, face-up
slot controlled by its player (established by `flipFirst`, destroyed only by
`flipSecond` / `relinquishFirstOnly`). -/
def Board.firstSelInv (b : Board) : Prop :=
  ∀ (p : String) (pos : Pos), mapGet b.firstSelection p = some pos →
    b.within pos
    ∧ ∃ s, b.cellAt pos = some s ∧ s.faceUp = true ∧ s.controller = some p

/-- Strengthening: pending positions are in bounds (also part of checkRep). -/
def Board.pendingWithinInv (b : Board) : Prop :=
  ∀ (p : String) (o : Outcome), b.pendingOf p = some o →
    b.within o.first ∧ b.within o.second

/-- Strengthening: a player never holds a pending outcome and a first
selection at the same time. -/
def Board.exclInv (b : Board) : Prop :=
  ∀ p : String, b.pendingOf p ≠ none → mapGet b.firstSelection p = none

/-- Strengthening: the two cells of a pending matched pair stay controlled by
that player until settlement removes them. -/
def Board.matchedCtrlInv (b : Board) : Prop :=
  ∀ (p : String) (a bb : Pos), b.pendingOf p = some (.matched a bb) →
    (∃ s, b.cellAt a = some s ∧ s.controller = some p)
    ∧ (∃ s, b.cellAt bb = some s ∧ s.controller = some p)

/-- The inductive invariant carried through every operation. -/
def Board.Inv (b : Board) : Prop :=
  b.gridWF ∧ b.faceDownFree ∧ b.firstSelInv ∧ b.pendingWithinInv
  ∧ b.exclInv ∧ b.matchedCtrlInv

/-- Board states reachable by sequences of completed operations, starting from
a successful construction. (`snapshot` returns a string and no board, so it
cannot change state.) Post-states of calls that throw are included: in the
source, mutations made before a throw persist. -/
inductive Reachable : Board → Prop where
  | fromConstruct {rows cols : Nat} {labels : List String} {b : Board} :
      Board.construct rows cols labels = .ok b → Reachable b
  | fromSettle {b : Board} (p : String) :
      Reachable b → Reachable (b.settleBeforeNewFirstMove p).1
  | fromFlipFirst {b : Board} (pos : Pos) (p : String) :
      Reachable b → Reachable (b.flipFirst pos p).1
  | fromFlipSecond {b : Board} (pos : Pos) (p : String) :
      Reachable b → Reachable (b.flipSecond pos p).1

theorem cellAt_some_within (b : Board) (q : Pos) (s : Slot) (hwf : b.gridWF)
    (h : b.cellAt q = some s) : b.within q := by
  obtain ⟨row, hrow, hcell⟩ := cellAt_some_imp b q s h
  have hr : q.r < b.grid.length := by
    by_contra hge
    rw [List.getElem?_eq_none (by omega)] at hrow
    exact Option.noConfusion hrow
  have hc : q.c < row.length := by
    by_contra hge
    rw [List.getElem?_eq_none (by omega)] at hcell
    exact Option.noConfusion hcell
  have h1 := hwf.1
  have h2 := hwf.2 row (List.getElem?_mem hrow)
  exact ⟨by omega, by omega⟩

theorem slotAtE_ok_within (b : Board) (pos : Pos) (x : Option Slot)
    (h : b.slotAtE pos = .ok x) : b.within pos := by
  unfold Board.slotAtE at h
  by_cases hw : b.within pos
  · exact hw
  · rw [if_neg hw] at h
    exact absurd h (by simp)

theorem settle_ok_pendingOf (b : Board) (p : String) (b1 : Board)
    (hs : b.settleBeforeNewFirstMove p = (b1, none)) :
    b1.pendingOf p = none := by
  unfold Board.settleBeforeNewFirstMove at hs
  cases hp : b.pendingOf p with
  | none =>
    rw [hp] at hs
    have : b = b1 := congrArg Prod.fst hs
    rw [← this]
    exact hp
  | some outcome =>
    rw [hp] at hs
    dsimp only at hs
    rcases hres : b.settleStep outcome with ⟨bM, eM⟩
    rw [hres] at hs
    cases eM with
    | some e =>
      have := congrArg Prod.snd hs
      simp [settleFinish] at this
    | none =>
      simp only [settleFinish] at hs
      split at hs
      · have : ({ bM with pending := mapSet bM.pending p none } : Board)
            = b1 := congrArg Prod.fst hs
        rw [← this]
        exact pendingOf_set_none bM p
      · have := congrArg Prod.snd hs
        simp at this

theorem pendingOf_set_ne (bM : Board) (p p' : String) (v : Option Outcome)
    (h : p ≠ p') :
    Board.pendingOf { bM with pending := mapSet bM.pending p v } p'
      = bM.pendingOf p' := by
  unfold Board.pendingOf
  dsimp only
  rw [mapGet_set_ne _ p p' v h]

theorem construct_Inv (rows cols : Nat) (labels : List String) (b : Board)
    (h : Board.construct rows cols labels = .ok b) : b.Inv := by
  obtain ⟨hrows, hcols, hwf, hcells, hfs, hpend⟩ :=
    construct_ok_inv rows cols labels b h
  refine ⟨hwf, ?_, ?_, ?_, ?_, ?_⟩
  · intro q s hcell _
    have hq := cellAt_some_within b q s hwf hcell
    obtain ⟨lab, hc⟩ := hcells q hq
    rw [hc] at hcell
    have := Option.some.inj hcell
    rw [← this]
  · intro p pos hp
    rw [hfs] at hp
    exact absurd hp (by simp [mapGet])
  · intro p o hp
    rw [Board.pendingOf, hpend] at hp
    exact absurd hp (by simp [mapGet])
  · intro p hp
    rw [hfs]
    rfl
  · intro p a bb hp
    rw [Board.pendingOf, hpend] at hp
    exact absurd hp (by simp [mapGet])

theorem flipDown_fdf (b : Board) (q : Pos) (h : b.faceDownFree) :
    (b.flipDownIfFree q).1.faceDownFree := by
  unfold Board.flipDownIfFree
  cases hg : b.getCellE q.r q.c with
  | error e => exact h
  | ok cell =>
    cases cell with
    | none => exact h
    | some t =>
      dsimp only
      by_cases hcond : t.faceUp = true ∧ t.controller = none
      · rw [if_pos hcond]
        intro q' s hcell hfd
        rcases cellAt_updateCell b q q' (some { t with faceUp := false })
          with hh | hh
        · rw [hh] at hcell
          have := Option.some.inj hcell
          rw [← this]
          exact hcond.2
        · rw [hh] at hcell
          exact h q' s hcell hfd
      · rw [if_neg hcond]
        exact h

theorem flipDown_preserves_controlled (b : Board) (q q' : Pos) (s : Slot)
    (hcell : b.cellAt q' = some s) (hctl : s.controller ≠ none) :
    (b.flipDownIfFree q).1.cellAt q' = some s := by
  unfold Board.flipDownIfFree
  cases hg : b.getCellE q.r q.c with
  | error e => exact hcell
  | ok cell =>
    cases cell with
    | none => exact hcell
    | some t =>
      dsimp only
      by_cases hcond : t.faceUp = true ∧ t.controller = none
      · rw [if_pos hcond]
        dsimp only
        have hq : b.cellAt q = some t := getCellE_ok_inv b q.r q.c _ hg
        have hne : q.r ≠ q'.r ∨ q.c ≠ q'.c := by
          by_contra hcontra
          push_neg at hcontra
          have heq : q = q' := by
            cases q
            cases q'
            simp only at hcontra
            rw [hcontra.1, hcontra.2]
          rw [heq, hcell] at hq
          have hts := Option.some.inj hq
          rw [← hts] at hcond
          exact hctl hcond.2
        rw [cellAt_updateCell_ne b q q' _ hne]
        exact hcell
      · rw [if_neg hcond]
        exact hcell

theorem settle_Inv (b : Board) (p : String) (hInv : b.Inv) :
    (b.settleBeforeNewFirstMove p).1.Inv := by
  obtain ⟨hwf, hfdf, hfsi, hpw, hex, hmc⟩ := hInv
  cases hp : b.pendingOf p with
  | none =>
    unfold Board.settleBeforeNewFirstMove
    rw [hp]
    exact ⟨hwf, hfdf, hfsi, hpw, hex, hmc⟩
  | some outcome =>
    have hfs_p : mapGet b.firstSelection p = none := hex p (by rw [hp]; simp)
    cases outcome with
    | matched a bb =>
      obtain ⟨hwa, hwb⟩ := hpw p _ hp
      have heq := settle_matched_eq b p a bb hp hwf hwa hwb
      rw [heq, settleFinish_fst]
      obtain ⟨⟨sa, hsa, hsactl⟩, ⟨sb, hsb, hsbctl⟩⟩ := hmc p a bb hp
      have hwfU : ((b.updateCell a.r a.c none).updateCell bb.r bb.c
          none).gridWF :=
        updateCell_gridWF _ bb.r bb.c none
          (updateCell_gridWF b a.r a.c none hwf)
      have hpres : ∀ (q' : Pos) (s : Slot),
          ((b.updateCell a.r a.c none).updateCell bb.r bb.c none).cellAt q'
            = some s → b.cellAt q' = some s := by
        intro q' s hc
        rcases cellAt_updateCell (b.updateCell a.r a.c none) bb q' none
          with hh | hh
        · rw [hh] at hc; exact absurd hc (by simp)
        · rw [hh] at hc
          rcases cellAt_updateCell b a q' none with hh2 | hh2
          · rw [hh2] at hc; exact absurd hc (by simp)
          · rw [hh2] at hc; exact hc
      have hfwd : ∀ q' : Pos, q' ≠ a → q' ≠ bb →
          ((b.updateCell a.r a.c none).updateCell bb.r bb.c none).cellAt q'
            = b.cellAt q' := by
        intro q' h1 h2
        rw [cellAt_updateCell_ne _ bb q' none
          (by rcases (pos_ne_iff q' bb).mp h2 with h | h
              · exact Or.inl (Ne.symm h)
              · exact Or.inr (Ne.symm h))]
        rw [cellAt_updateCell_ne _ a q' none
          (by rcases (pos_ne_iff q' a).mp h1 with h | h
              · exact Or.inl (Ne.symm h)
              · exact Or.inr (Ne.symm h))]
      have hkey : ∀ p'' : String, p ≠ p'' → ∀ (x : Pos) (sx : Slot),
          b.cellAt x = some sx → sx.controller = some p'' →
          x ≠ a ∧ x ≠ bb := by
        intro p'' hne x sx hx hxctl
        constructor
        · intro hcontra
          rw [hcontra, hsa] at hx
          have hxs := Option.some.inj hx
          apply hne
          rw [← hxs] at hxctl
          rw [hsactl] at hxctl
          exact Option.some.inj hxctl
        · intro hcontra
          rw [hcontra, hsb] at hx
          have hxs := Option.some.inj hx
          apply hne
          rw [← hxs] at hxctl
          rw [hsbctl] at hxctl
          exact Option.some.inj hxctl
      refine ⟨hwfU, ?_, ?_, ?_, ?_, ?_⟩
      · intro q' s hc hfd
        rw [cellAt_set_pending] at hc
        exact hfdf q' s (hpres q' s hc) hfd
      · intro p' pos' hfs'
        have hfs'' : mapGet b.firstSelection p' = some pos' := hfs'
        have hppne : p ≠ p' := by
          intro h
          rw [← h, hfs_p] at hfs''
          exact Option.noConfusion hfs''
        obtain ⟨hwpos, s', hs', hsface, hsctl⟩ := hfsi p' pos' hfs''
        obtain ⟨hpa, hpb⟩ := hkey p' hppne pos' s' hs' hsctl
        refine ⟨hwpos, s', ?_, hsface, hsctl⟩
        rw [cellAt_set_pending, hfwd pos' hpa hpb]
        exact hs'
      · intro p' o hp'
        by_cases hpp : p = p'
        · rw [← hpp, pendingOf_set_none] at hp'
          exact absurd hp' (by simp)
        · rw [pendingOf_set_ne _ p p' none hpp] at hp'
          exact hpw p' o hp'
      · intro p' hp'
        by_cases hpp : p = p'
        · rw [← hpp]
          exact hfs_p
        · rw [pendingOf_set_ne _ p p' none hpp] at hp'
          exact hex p' hp'
      · intro p' a' bb' hp'
        by_cases hpp : p = p'
        · rw [← hpp, pendingOf_set_none] at hp'
          exact absurd hp' (by simp)
        · rw [pendingOf_set_ne _ p p' none hpp] at hp'
          obtain ⟨⟨s1', hs1', hc1'⟩, ⟨s2', hs2', hc2'⟩⟩ := hmc p' a' bb' hp'
          obtain ⟨h1a, h1b⟩ := hkey p' hpp a' s1' hs1' hc1'
          obtain ⟨h2a, h2b⟩ := hkey p' hpp bb' s2' hs2' hc2'
          refine ⟨⟨s1', ?_, hc1'⟩, ⟨s2', ?_, hc2'⟩⟩
          · rw [cellAt_set_pending, hfwd a' h1a h1b]
            exact hs1'
          · rw [cellAt_set_pending, hfwd bb' h2a h2b]
            exact hs2'
    | mismatched a bb =>
      obtain ⟨hwa, hwb⟩ := hpw p _ hp
      obtain ⟨hA2, _, _, hAwf⟩ := flipDownIfFree_full b a hwf hwa
      rcases hAres : b.flipDownIfFree a with ⟨bA, eA⟩
      rw [hAres] at hA2 hAwf
      simp only at hA2
      subst hA2
      have hAfields := flipDownIfFree_fields b a
      rw [hAres] at hAfields
      obtain ⟨hAr, hAc, hAf, hAp⟩ := hAfields
      have hwbA : bA.within bb :=
        ⟨by rw [hAr]; exact hwb.1, by rw [hAc]; exact hwb.2⟩
      obtain ⟨hB2, _, _, hBwf⟩ := flipDownIfFree_full bA bb hAwf hwbA
      rcases hBres : bA.flipDownIfFree bb with ⟨bB, eB⟩
      rw [hBres] at hB2 hBwf
      simp only at hB2
      subst hB2
      have hBfields := flipDownIfFree_fields bA bb
      rw [hBres] at hBfields
      obtain ⟨hBr, hBc, hBf, hBp⟩ := hBfields
      have hsettle : b.settleBeforeNewFirstMove p
          = settleFinish p (bB, none) := by
        unfold Board.settleBeforeNewFirstMove Board.settleStep
        rw [hp]
        dsimp only
        rw [hAres]
        dsimp only
        rw [hBres]
      rw [hsettle, settleFinish_fst]
      have hfdfB : bB.faceDownFree := by
        have h1 := flipDown_fdf b a hfdf
        rw [hAres] at h1
        have h2 := flipDown_fdf bA bb h1
        rw [hBres] at h2
        exact h2
      have hpresB : ∀ (q' : Pos) (s : Slot), b.cellAt q' = some s →
          s.controller ≠ none → bB.cellAt q' = some s := by
        intro q' s hc hctl
        have h1 := flipDown_preserves_controlled b a q' s hc hctl
        rw [hAres] at h1
        have h2 := flipDown_preserves_controlled bA bb q' s h1 hctl
        rw [hBres] at h2
        exact h2
      refine ⟨hBwf, ?_, ?_, ?_, ?_, ?_⟩
      · intro q' s hc hfd
        rw [cellAt_set_pending] at hc
        exact hfdfB q' s hc hfd
      · intro p' pos' hfs'
        have hfs'' : mapGet b.firstSelection p' = some pos' := by
          rw [← hAf, ← hBf]
          exact hfs'
        obtain ⟨hwpos, s', hs', hsface, hsctl⟩ := hfsi p' pos' hfs''
        refine ⟨?_, s', ?_, hsface, hsctl⟩
        · exact ⟨by rw [hBr, hAr]; exact hwpos.1,
                 by rw [hBc, hAc]; exact hwpos.2⟩
        · rw [cellAt_set_pending]
          exact hpresB pos' s' hs' (by rw [hsctl]; simp)
      · intro p' o hp'
        by_cases hpp : p = p'
        · rw [← hpp, pendingOf_set_none] at hp'
          exact absurd hp' (by simp)
        · rw [pendingOf_set_ne _ p p' none hpp] at hp'
          have hp'' : b.pendingOf p' = some o := by
            unfold Board.pendingOf
            unfold Board.pendingOf at hp'
            rw [hBp, hAp] at hp'
            exact hp'
          obtain ⟨h1, h2⟩ := hpw p' o hp''
          exact ⟨⟨by rw [hBr, hAr]; exact h1.1, by rw [hBc, hAc]; exact h1.2⟩,
                 ⟨by rw [hBr, hAr]; exact h2.1, by rw [hBc, hAc]; exact h2.2⟩⟩
      · intro p' hp'
        by_cases hpp : p = p'
        · rw [← hpp]
          show mapGet bB.firstSelection p = none
          rw [hBf, hAf]
          exact hfs_p
        · rw [pendingOf_set_ne _ p p' none hpp] at hp'
          have hp'' : b.pendingOf p' ≠ none := by
            unfold Board.pendingOf
            unfold Board.pendingOf at hp'
            rw [hBp, hAp] at hp'
            exact hp'
          show mapGet bB.firstSelection p' = none
          rw [hBf, hAf]
          exact hex p' hp''
      · intro p' a' bb' hp'
        by_cases hpp : p = p'
        · rw [← hpp, pendingOf_set_none] at hp'
          exact absurd hp' (by simp)
        · rw [pendingOf_set_ne _ p p' none hpp] at hp'
          have hp'' : b.pendingOf p' = some (.matched a' bb') := by
            unfold Board.pendingOf
            unfold Board.pendingOf at hp'
            rw [hBp, hAp] at hp'
            exact hp'
          obtain ⟨⟨s1', hs1', hc1'⟩, ⟨s2', hs2', hc2'⟩⟩ := hmc p' a' bb' hp''
          refine ⟨⟨s1', ?_, hc1'⟩, ⟨s2', ?_, hc2'⟩⟩
          · rw [cellAt_set_pending]
            exact hpresB a' s1' hs1' (by rw [hc1']; simp)
          · rw [cellAt_set_pending]
            exact hpresB bb' s2' hs2' (by rw [hc2']; simp)

theorem inv_after_first (b1 : Board) (pos : Pos) (p : String) (b2 : Board)
    (hwf2 : b2.gridWF) (hfdf2 : b2.faceDownFree)
    (hrows : b2.rows = b1.rows) (hcols : b2.cols = b1.cols)
    (hfs2 : b2.firstSelection = b1.firstSelection)
    (hpend2 : b2.pending = b1.pending)
    (hpos : b1.within pos)
    (hcellpos : ∃ v : Slot, b2.cellAt pos = some v ∧ v.faceUp = true
      ∧ v.controller = some p)
    (hpreserve : ∀ (q' : Pos) (s : Slot), b1.cellAt q' = some s →
      s.controller ≠ none → b2.cellAt q' = some s)
    (hInv1 : b1.Inv) (hpendp : b1.pendingOf p = none) :
    Board.Inv { b2 with firstSelection := mapSet b2.firstSelection p pos } := by
  obtain ⟨hwf1, hfdf1, hfsi1, hpw1, hex1, hmc1⟩ := hInv1
  have hdims : ∀ q : Pos, b1.within q → b2.within q := by
    intro q hq
    exact ⟨by rw [hrows]; exact hq.1, by rw [hcols]; exact hq.2⟩
  have hpend' : ∀ p' : String,
      Board.pendingOf { b2 with
        firstSelection := mapSet b2.firstSelection p pos } p'
      = b1.pendingOf p' := by
    intro p'
    unfold Board.pendingOf
    dsimp only
    rw [hpend2]
  refine ⟨hwf2, ?_, ?_, ?_, ?_, ?_⟩
  · intro q' s hc hfd
    exact hfdf2 q' s hc hfd
  · intro p' pos' hfs'
    by_cases hpp : p = p'
    · rw [← hpp] at hfs'
      rw [mapGet_set_self] at hfs'
      have hpos' := Option.some.inj hfs'
      rw [← hpos']
      obtain ⟨v, hv, hvf, hvc⟩ := hcellpos
      exact ⟨hdims pos hpos, v, hv, hvf, by rw [hvc, hpp]⟩
    · rw [mapGet_set_ne _ p p' pos hpp, hfs2] at hfs'
      obtain ⟨hwpos, s', hs', hsface, hsctl⟩ := hfsi1 p' pos' hfs'
      refine ⟨hdims pos' hwpos, s', ?_, hsface, hsctl⟩
      exact hpreserve pos' s' hs' (by rw [hsctl]; simp)
  · intro p' o hp'
    rw [hpend'] at hp'
    obtain ⟨h1, h2⟩ := hpw1 p' o hp'
    exact ⟨hdims _ h1, hdims _ h2⟩
  · intro p' hp'
    rw [hpend'] at hp'
    by_cases hpp : p = p'
    · rw [← hpp] at hp'
      exact absurd hpendp hp'
    · show mapGet (mapSet b2.firstSelection p pos) p' = none
      rw [mapGet_set_ne _ p p' pos hpp, hfs2]
      exact hex1 p' hp'
  · intro p' a' bb' hp'
    rw [hpend'] at hp'
    obtain ⟨⟨s1', hs1', hc1'⟩, ⟨s2', hs2', hc2'⟩⟩ := hmc1 p' a' bb' hp'
    refine ⟨⟨s1', ?_, hc1'⟩, ⟨s2', ?_, hc2'⟩⟩
    · exact hpreserve a' s1' hs1' (by rw [hc1']; simp)
    · exact hpreserve bb' s2' hs2' (by rw [hc2']; simp)

theorem flipFirst_Inv (b : Board) (pos : Pos) (p : String) (hInv : b.Inv) :
    (b.flipFirst pos p).1.Inv := by
  have hInv1 := settle_Inv b p hInv
  unfold Board.flipFirst
  rcases hs : b.settleBeforeNewFirstMove p with ⟨b1, e1⟩
  rw [hs] at hInv1
  cases e1 with
  | some e => exact hInv1
  | none =>
    dsimp only
    have hpendp : b1.pendingOf p = none := settle_ok_pendingOf b p b1 hs
    obtain ⟨hwf1, hfdf1, hfsi1, hpw1, hex1, hmc1⟩ := hInv1
    cases hslot : b1.slotAtE pos with
    | error e => exact ⟨hwf1, hfdf1, hfsi1, hpw1, hex1, hmc1⟩
    | ok cell =>
      cases cell with
      | none => exact ⟨hwf1, hfdf1, hfsi1, hpw1, hex1, hmc1⟩
      | some slot =>
        dsimp only
        have hwpos : b1.within pos := slotAtE_ok_within b1 pos _ hslot
        have hcellpos : b1.cellAt pos = some slot := by
          rw [slotAtE_ok b1 pos hwf1 hwpos] at hslot
          exact Except.ok.inj hslot
        by_cases hface : slot.faceUp = false
        · rw [if_pos hface]
          rw [finishFlipFirst_fst]
          have hslotctl : slot.controller = none := hfdf1 pos slot hcellpos hface
          refine inv_after_first b1 pos p _ (updateCell_gridWF b1 pos.r pos.c _
            hwf1) ?_ rfl rfl rfl rfl hwpos ?_ ?_
            ⟨hwf1, hfdf1, hfsi1, hpw1, hex1, hmc1⟩ hpendp
          · intro q' s hc hfd
            rcases cellAt_updateCell b1 pos q'
              (some { slot with faceUp := true, controller := some p })
              with hh | hh
            · rw [hh] at hc
              have := Option.some.inj hc
              rw [← this] at hfd
              exact absurd hfd (by simp)
            · rw [hh] at hc
              exact hfdf1 q' s hc hfd
          · exact ⟨{ slot with faceUp := true, controller := some p },
              cellAt_updateCell_self_wf b1 pos _ hwf1 hwpos, rfl, rfl⟩
          · intro q' s hc hctl
            have hne : pos.r ≠ q'.r ∨ pos.c ≠ q'.c := by
              by_contra hcontra
              push_neg at hcontra
              have heq : pos = q' := by
                cases pos
                cases q'
                simp only at hcontra
                rw [hcontra.1, hcontra.2]
              rw [← heq, hcellpos] at hc
              have := Option.some.inj hc
              rw [← this] at hctl
              exact hctl hslotctl
            rw [cellAt_updateCell_ne b1 pos q' _ hne]
            exact hc
        · have hfaceT : slot.faceUp = true := by
            revert hface
            cases slot.faceUp <;> simp
          rw [if_neg hface]
          by_cases hctl : slot.controller = none
          · rw [if_pos hctl]
            rw [finishFlipFirst_fst]
            refine inv_after_first b1 pos p _ (updateCell_gridWF b1 pos.r
              pos.c _ hwf1) ?_ rfl rfl rfl rfl hwpos ?_ ?_
              ⟨hwf1, hfdf1, hfsi1, hpw1, hex1, hmc1⟩ hpendp
            · intro q' s hc hfd
              rcases cellAt_updateCell b1 pos q'
                (some { slot with controller := some p }) with hh | hh
              · rw [hh] at hc
                have := Option.some.inj hc
                rw [← this] at hfd
                dsimp only at hfd
                rw [hfaceT] at hfd
                exact absurd hfd (by simp)
              · rw [hh] at hc
                exact hfdf1 q' s hc hfd
            · exact ⟨{ slot with controller := some p },
                cellAt_updateCell_self_wf b1 pos _ hwf1 hwpos, hfaceT, rfl⟩
            · intro q' s hc hctl'
              have hne : pos.r ≠ q'.r ∨ pos.c ≠ q'.c := by
                by_contra hcontra
                push_neg at hcontra
                have heq : pos = q' := by
                  cases pos
                  cases q'
                  simp only at hcontra
                  rw [hcontra.1, hcontra.2]
                rw [← heq, hcellpos] at hc
                have := Option.some.inj hc
                rw [← this] at hctl'
                exact hctl' hctl
              rw [cellAt_updateCell_ne b1 pos q' _ hne]
              exact hc
          · by_cases hwho : slot.controller ≠ some p
            · rw [if_neg hctl, if_pos hwho]
              exact ⟨hwf1, hfdf1, hfsi1, hpw1, hex1, hmc1⟩
            · rw [if_neg hctl, if_neg hwho]
              push_neg at hwho
              rw [finishFlipFirst_fst]
              exact inv_after_first b1 pos p b1 hwf1 hfdf1 rfl rfl rfl rfl
                hwpos ⟨slot, hcellpos, hfaceT, hwho⟩
                (fun q' s hc _ => hc)
                ⟨hwf1, hfdf1, hfsi1, hpw1, hex1, hmc1⟩ hpendp

theorem pos_ne_of_cells (b : Board) (x y : Pos) (sx sy : Slot)
    (hx : b.cellAt x = some sx) (hy : b.cellAt y = some sy)
    (hctl : sx.controller ≠ sy.controller) :
    x.r ≠ y.r ∨ x.c ≠ y.c := by
  by_contra hcontra
  push_neg at hcontra
  have heq : x = y := by
    cases x
    cases y
    simp only at hcontra
    rw [hcontra.1, hcontra.2]
  rw [heq, hy] at hx
  have := Option.some.inj hx
  exact hctl (by rw [this])

theorem relinquish_Inv (b : Board) (p : String) (hInv : b.Inv) :
    (b.relinquishFirstOnly p).1.Inv := by
  obtain ⟨hwf, hfdf, hfsi, hpw, hex, hmc⟩ := hInv
  unfold Board.relinquishFirstOnly
  cases hf : mapGet b.firstSelection p with
  | none => exact ⟨hwf, hfdf, hfsi, hpw, hex, hmc⟩
  | some first =>
    dsimp only
    obtain ⟨hw1, s1, hcell1, hs1f, hs1c⟩ := hfsi p first hf
    rw [slotAtE_ok b first hwf hw1, hcell1]
    dsimp only
    rw [fst_ite_pair]
    have hwfU : (b.updateCell first.r first.c
        (some { s1 with controller := none })).gridWF :=
      updateCell_gridWF b first.r first.c _ hwf
    have hframe : ∀ (q' : Pos) (s : Slot), b.cellAt q' = some s →
        s.controller ≠ none → s.controller ≠ some p →
        (b.updateCell first.r first.c
          (some { s1 with controller := none })).cellAt q' = some s := by
      intro q' s hc hctl hcp
      rw [cellAt_updateCell_ne b first q' _
        (pos_ne_of_cells b first q' s1 s hcell1 hc
          (by rw [hs1c]; intro hh; exact hcp hh.symm))]
      exact hc
    refine ⟨hwfU, ?_, ?_, ?_, ?_, ?_⟩
    · intro q' s hc hfd
      rw [cellAt_set_firstSelection] at hc
      rcases cellAt_updateCell b first q'
        (some { s1 with controller := none }) with hh | hh
      · rw [hh] at hc
        have := Option.some.inj hc
        rw [← this]
      · rw [hh] at hc
        exact hfdf q' s hc hfd
    · intro p' pos' hfs'
      by_cases hpp : p = p'
      · rw [← hpp] at hfs'
        dsimp only at hfs'
        rw [mapGet_del_self] at hfs'
        exact absurd hfs' (by simp)
      · dsimp only at hfs'
        rw [mapGet_del_ne _ p p' hpp] at hfs'
        obtain ⟨hwpos, s', hs', hsface, hsctl⟩ := hfsi p' pos' hfs'
        refine ⟨hwpos, s', ?_, hsface, hsctl⟩
        rw [cellAt_set_firstSelection]
        refine hframe pos' s' hs' (by rw [hsctl]; simp) ?_
        rw [hsctl]
        intro hh
        exact hpp (Option.some.inj hh).symm
    · intro p' o hp'
      exact hpw p' o hp'
    · intro p' hp'
      by_cases hpp : p = p'
      · rw [← hpp]
        dsimp only
        exact mapGet_del_self _ p
      · dsimp only
        rw [mapGet_del_ne _ p p' hpp]
        exact hex p' hp'
    · intro p' a' bb' hp'
      have hp'' : b.pendingOf p' = some (Outcome.matched a' bb') := hp'
      have hppne : p ≠ p' := by
        intro hh
        have := hex p' (by rw [hp'']; simp)
        rw [← hh, hf] at this
        exact Option.noConfusion this
      obtain ⟨⟨t1, ht1, hc1⟩, ⟨t2, ht2, hc2⟩⟩ := hmc p' a' bb' hp''
      refine ⟨⟨t1, ?_, hc1⟩, ⟨t2, ?_, hc2⟩⟩
      · rw [cellAt_set_firstSelection]
        refine hframe a' t1 ht1 (by rw [hc1]; simp) ?_
        rw [hc1]
        intro hh
        exact hppne (Option.some.inj hh).symm
      · rw [cellAt_set_firstSelection]
        refine hframe bb' t2 ht2 (by rw [hc2]; simp) ?_
        rw [hc2]
        intro hh
        exact hppne (Option.some.inj hh).symm

theorem inv_update_uncontrolled (b : Board) (pos : Pos) (s0 v : Slot)
    (hInv : b.Inv) (hc0 : b.cellAt pos = some s0)
    (hs0 : s0.controller = none)
    (hv : v.faceUp = true ∨ v.controller = none) :
    (b.updateCell pos.r pos.c (some v)).Inv := by
  obtain ⟨hwf, hfdf, hfsi, hpw, hex, hmc⟩ := hInv
  have hframe : ∀ (q' : Pos) (s : Slot), b.cellAt q' = some s →
      s.controller ≠ none →
      (b.updateCell pos.r pos.c (some v)).cellAt q' = some s := by
    intro q' s hc hctl
    rw [cellAt_updateCell_ne b pos q' _
      (pos_ne_of_cells b pos q' s0 s hc0 hc (by
        rw [hs0]
        intro hh
        exact hctl hh.symm))]
    exact hc
  refine ⟨updateCell_gridWF b pos.r pos.c _ hwf, ?_, ?_, ?_, ?_, ?_⟩
  · intro q' s hc hfd
    rcases cellAt_updateCell b pos q' (some v) with hh | hh
    · rw [hh] at hc
      have := Option.some.inj hc
      rw [← this] at hfd ⊢
      rcases hv with hv | hv
      · rw [hv] at hfd
        exact absurd hfd (by simp)
      · exact hv
    · rw [hh] at hc
      exact hfdf q' s hc hfd
  · intro p' pos' hfs'
    obtain ⟨hwpos, s', hs', hsface, hsctl⟩ := hfsi p' pos' hfs'
    refine ⟨hwpos, s', ?_, hsface, hsctl⟩
    exact hframe pos' s' hs' (by rw [hsctl]; simp)
  · intro p' o hp'
    exact hpw p' o hp'
  · intro p' hp'
    exact hex p' hp'
  · intro p' a' bb' hp'
    obtain ⟨⟨t1, ht1, hc1⟩, ⟨t2, ht2, hc2⟩⟩ := hmc p' a' bb' hp'
    exact ⟨⟨t1, hframe a' t1 ht1 (by rw [hc1]; simp), hc1⟩,
           ⟨t2, hframe bb' t2 ht2 (by rw [hc2]; simp), hc2⟩⟩

theorem flipSecondResolve_frame (b1 : Board) (first pos : Pos) (p : String)
    (s1 s2u : Slot) (q' : Pos)
    (h1 : pos.r ≠ q'.r ∨ pos.c ≠ q'.c)
    (h2 : first.r ≠ q'.r ∨ first.c ≠ q'.c) :
    (b1.flipSecondResolve first pos p s1 s2u).1.cellAt q' = b1.cellAt q' := by
  unfold Board.flipSecondResolve
  dsimp only
  rw [fst_ite_pair, cellAt_set_pending_firstSel,
    cellAt_updateCell_ne _ pos q' _ h1, cellAt_updateCell_ne _ first q' _ h2]

theorem flipSecondResolve_othersPend (b1 : Board) (first pos : Pos)
    (p : String) (s1 s2u : Slot) (p' : String) (hpp : p ≠ p') :
    (b1.flipSecondResolve first pos p s1 s2u).1.pendingOf p'
      = b1.pendingOf p' := by
  unfold Board.flipSecondResolve
  dsimp only
  rw [fst_ite_pair]
  unfold Board.pendingOf
  dsimp only
  rw [mapGet_set_ne _ p p' _ hpp]
  rfl

theorem flipSecondResolve_othersFS (b1 : Board) (first pos : Pos)
    (p : String) (s1 s2u : Slot) (p' : String) (hpp : p ≠ p') :
    mapGet (b1.flipSecondResolve first pos p s1 s2u).1.firstSelection p'
      = mapGet b1.firstSelection p' := by
  unfold Board.flipSecondResolve
  dsimp only
  rw [fst_ite_pair]
  dsimp only
  rw [mapGet_del_ne _ p p' hpp]
  rfl

theorem flipSecondResolve_dims (b1 : Board) (first pos : Pos) (p : String)
    (s1 s2u : Slot) :
    (b1.flipSecondResolve first pos p s1 s2u).1.rows = b1.rows
    ∧ (b1.flipSecondResolve first pos p s1 s2u).1.cols = b1.cols := by
  unfold Board.flipSecondResolve
  dsimp only
  rw [fst_ite_pair]
  exact ⟨rfl, rfl⟩

theorem flipSecondResolve_wf (b1 : Board) (first pos : Pos) (p : String)
    (s1 s2u : Slot) (hwf1 : b1.gridWF) :
    (b1.flipSecondResolve first pos p s1 s2u).1.gridWF := by
  unfold Board.flipSecondResolve
  dsimp only
  rw [fst_ite_pair]
  exact updateCell_gridWF _ pos.r pos.c _
    (updateCell_gridWF b1 first.r first.c _ hwf1)

theorem flipSecondResolve_Inv (b1 : Board) (first pos : Pos) (p : String)
    (s1 s2u : Slot) (hInv1 : b1.Inv)
    (hw1 : b1.within first) (hwp : b1.within pos)
    (hcell1 : b1.cellAt first = some s1) (hs1f : s1.faceUp = true)
    (hs1c : s1.controller = some p)
    (hcellp : b1.cellAt pos = some s2u) (hs2free : s2u.controller = none)
    (hs2f : s2u.faceUp = true)
    (hne : pos ≠ first) :
    (b1.flipSecondResolve first pos p s1 s2u).1.Inv := by
  obtain ⟨hwf1, hfdf1, hfsi1, hpw1, hex1, hmc1⟩ := hInv1
  obtain ⟨hPcell, hFcell, hPend, hFS⟩ :=
    flipSecondResolve_spec b1 first pos p s1 s2u hwf1 hwp hw1 hne
  obtain ⟨hRows, hCols⟩ := flipSecondResolve_dims b1 first pos p s1 s2u
  have hframe : ∀ (q' : Pos) (s : Slot), b1.cellAt q' = some s →
      s.controller ≠ none → s.controller ≠ some p →
      (b1.flipSecondResolve first pos p s1 s2u).1.cellAt q' = some s := by
    intro q' s hc hctl hcp
    have h1 := pos_ne_of_cells b1 pos q' s2u s hcellp hc (by
      rw [hs2free]
      intro hh
      exact hctl hh.symm)
    have h2 := pos_ne_of_cells b1 first q' s1 s hcell1 hc (by
      rw [hs1c]
      intro hh
      exact hcp hh.symm)
    rw [flipSecondResolve_frame b1 first pos p s1 s2u q' h1 h2]
    exact hc
  refine ⟨flipSecondResolve_wf b1 first pos p s1 s2u hwf1, ?_, ?_, ?_, ?_, ?_⟩
  · intro q' s hc hfd
    by_cases hq1 : q' = pos
    · rw [hq1, hPcell] at hc
      have hcs := Option.some.inj hc
      rw [← hcs] at hfd
      dsimp only at hfd
      rw [hs2f] at hfd
      exact absurd hfd (by simp)
    · by_cases hq2 : q' = first
      · rw [hq2, hFcell] at hc
        have hcs := Option.some.inj hc
        rw [← hcs] at hfd
        dsimp only at hfd
        rw [hs1f] at hfd
        exact absurd hfd (by simp)
      · have h1 : pos.r ≠ q'.r ∨ pos.c ≠ q'.c := by
          rcases (pos_ne_iff q' pos).mp hq1 with h | h
          · exact Or.inl (Ne.symm h)
          · exact Or.inr (Ne.symm h)
        have h2 : first.r ≠ q'.r ∨ first.c ≠ q'.c := by
          rcases (pos_ne_iff q' first).mp hq2 with h | h
          · exact Or.inl (Ne.symm h)
          · exact Or.inr (Ne.symm h)
        rw [flipSecondResolve_frame b1 first pos p s1 s2u q' h1 h2] at hc
        exact hfdf1 q' s hc hfd
  · intro p' pos' hfs'
    by_cases hpp : p = p'
    · rw [← hpp, hFS] at hfs'
      exact absurd hfs' (by simp)
    · rw [flipSecondResolve_othersFS b1 first pos p s1 s2u p' hpp] at hfs'
      obtain ⟨hwpos, s', hs', hsf, hsc⟩ := hfsi1 p' pos' hfs'
      refine ⟨⟨by rw [hRows]; exact hwpos.1, by rw [hCols]; exact hwpos.2⟩,
        s', ?_, hsf, hsc⟩
      refine hframe pos' s' hs' (by rw [hsc]; simp) ?_
      rw [hsc]
      intro hh
      exact hpp (Option.some.inj hh).symm
  · intro p' o hp'
    by_cases hpp : p = p'
    · rw [← hpp, hPend] at hp'
      have ho := (Option.some.inj hp').symm
      by_cases hm : s1.label = s2u.label
      · rw [if_pos hm] at ho
        rw [ho]
        exact ⟨⟨by rw [hRows]; exact hw1.1, by rw [hCols]; exact hw1.2⟩,
               ⟨by rw [hRows]; exact hwp.1, by rw [hCols]; exact hwp.2⟩⟩
      · rw [if_neg hm] at ho
        rw [ho]
        exact ⟨⟨by rw [hRows]; exact hw1.1, by rw [hCols]; exact hw1.2⟩,
               ⟨by rw [hRows]; exact hwp.1, by rw [hCols]; exact hwp.2⟩⟩
    · rw [flipSecondResolve_othersPend b1 first pos p s1 s2u p' hpp] at hp'
      obtain ⟨h1, h2⟩ := hpw1 p' o hp'
      exact ⟨⟨by rw [hRows]; exact h1.1, by rw [hCols]; exact h1.2⟩,
             ⟨by rw [hRows]; exact h2.1, by rw [hCols]; exact h2.2⟩⟩
  · intro p' hp'
    by_cases hpp : p = p'
    · rw [← hpp]
      exact hFS
    · rw [flipSecondResolve_othersPend b1 first pos p s1 s2u p' hpp] at hp'
      rw [flipSecondResolve_othersFS b1 first pos p s1 s2u p' hpp]
      exact hex1 p' hp'
  · intro p' a' bb' hp'
    by_cases hpp : p = p'
    · rw [← hpp, hPend] at hp'
      have hout := Option.some.inj hp'
      by_cases hm : s1.label = s2u.label
      · rw [if_pos hm] at hout
        injection hout with ha hb
        rw [← ha, ← hb]
        refine ⟨⟨{ s1 with controller :=
            if s1.label = s2u.label then some p else none }, hFcell, ?_⟩,
          ⟨{ s2u with controller :=
            if s1.label = s2u.label then some p else none }, hPcell, ?_⟩⟩
        · dsimp only
          rw [if_pos hm, hpp]
        · dsimp only
          rw [if_pos hm, hpp]
      · rw [if_neg hm] at hout
        exact Outcome.noConfusion hout
    · rw [flipSecondResolve_othersPend b1 first pos p s1 s2u p' hpp] at hp'
      obtain ⟨⟨t1, ht1, hc1⟩, ⟨t2, ht2, hc2⟩⟩ := hmc1 p' a' bb' hp'
      refine ⟨⟨t1, ?_, hc1⟩, ⟨t2, ?_, hc2⟩⟩
      · refine hframe a' t1 ht1 (by rw [hc1]; simp) ?_
        rw [hc1]
        intro hh
        exact hpp (Option.some.inj hh).symm
      · refine hframe bb' t2 ht2 (by rw [hc2]; simp) ?_
        rw [hc2]
        intro hh
        exact hpp (Option.some.inj hh).symm

theorem flipSecond_Inv (b : Board) (pos : Pos) (p : String) (hInv : b.Inv) :
    (b.flipSecond pos p).1.Inv := by
  have hInvFull := hInv
  obtain ⟨hwf, hfdf, hfsi, hpw, hex, hmc⟩ := hInv
  have hrelInv : (b.relinquishFirstOnly p).1.Inv :=
    relinquish_Inv b p hInvFull
  unfold Board.flipSecond
  cases hf : mapGet b.firstSelection p with
  | none => exact hInvFull
  | some first =>
    dsimp only
    obtain ⟨hw1, s1, hcell1, hs1f, hs1c⟩ := hfsi p first hf
    by_cases hw : b.within pos
    · rw [if_pos hw, getCellE_ok b pos hwf hw.1]
      cases hcell2 : b.cellAt pos with
      | none =>
        dsimp only
        rcases hrel : b.relinquishFirstOnly p with ⟨bR, eR⟩
        rw [hrel] at hrelInv
        cases eR with
        | some e => exact hrelInv
        | none => exact hrelInv
      | some s2 =>
        dsimp only
        by_cases hguard : s2.faceUp = true ∧ s2.controller ≠ none
        · rw [if_pos hguard]
          rcases hrel : b.relinquishFirstOnly p with ⟨bR, eR⟩
          rw [hrel] at hrelInv
          cases eR with
          | some e => exact hrelInv
          | none => exact hrelInv
        · rw [if_neg hguard]
          have hctl2 : s2.controller = none := by
            by_cases hface : s2.faceUp = true
            · by_contra hc
              exact hguard ⟨hface, hc⟩
            · have hfd : s2.faceUp = false := by
                revert hface
                cases s2.faceUp <;> simp
              exact hfdf pos s2 hcell2 hfd
          have hnef : pos ≠ first := by
            intro hcontra
            rw [hcontra, hcell1] at hcell2
            have hss := Option.some.inj hcell2
            rw [← hss] at hctl2
            rw [hs1c] at hctl2
            exact Option.noConfusion hctl2
          by_cases hface : s2.faceUp = true
          · rw [if_pos hface, if_pos hface]
            rw [slotAtE_ok b first hwf hw1, hcell1]
            exact flipSecondResolve_Inv b first pos p s1 s2 hInvFull hw1 hw
              hcell1 hs1f hs1c hcell2 hctl2 hface hnef
          · rw [if_neg hface, if_neg hface]
            have hInvB1 := inv_update_uncontrolled b pos s2
              { s2 with faceUp := true } hInvFull hcell2 hctl2 (Or.inl rfl)
            have hwfB1 : (b.updateCell pos.r pos.c
                (some { s2 with faceUp := true })).gridWF :=
              updateCell_gridWF b pos.r pos.c _ hwf
            have hcell1' : (b.updateCell pos.r pos.c
                (some { s2 with faceUp := true })).cellAt first = some s1 := by
              rw [cellAt_updateCell_ne b pos first _
                ((pos_ne_iff pos first).mp hnef)]
              exact hcell1
            rw [slotAtE_ok _ first hwfB1 hw1, hcell1']
            have hcellp1 : (b.updateCell pos.r pos.c
                (some { s2 with faceUp := true })).cellAt pos
                = some { s2 with faceUp := true } :=
              cellAt_updateCell_self_wf b pos _ hwf hw
            exact flipSecondResolve_Inv _ first pos p s1
              { s2 with faceUp := true } hInvB1 hw1 hw hcell1' hs1f hs1c
              hcellp1 hctl2 rfl hnef
    · rw [if_neg hw]
      dsimp only
      rcases hrel : b.relinquishFirstOnly p with ⟨bR, eR⟩
      rw [hrel] at hrelInv
      cases eR with
      | some e => exact hrelInv
      | none => exact hrelInv

theorem reachable_inv (b : Board) (hb : Reachable b) : b.Inv := by
  induction hb with
  | fromConstruct h => exact construct_Inv _ _ _ _ h
  | fromSettle p _ ih => exact settle_Inv _ p ih
  | fromFlipFirst pos p _ ih => exact flipFirst_Inv _ pos p ih
  | fromFlipSecond pos p _ ih => exact flipSecond_Inv _ pos p ih

def boardC2base : Board :=
  { rows := 1, cols := 2,
    grid := [[some { label := "A", faceUp := false, controller := none },
              some { label := "B", faceUp := false, controller := none }]],
    firstSelection := [], pending := [] }

/-- C2: for every board state reachable by any sequence of completed
operations (construct, settleBeforeNewFirstMove, flipFirst, flipSecond;
snapshot does not mutate the board), every non-empty slot that is
face-down (faceUp = false) has controller = none; the `Reachable`
inductive closes over all the mutating operations, so this theorem shows
each of them preserves the invariant. -/
theorem claim_C2_invariant (b : Board) (hb : Reachable b) :
    ∀ (q : Pos) (s : Slot), b.cellAt q = some s → s.faceUp = false →
      s.controller = none := by
  intro q s hcell hfd
  exact (reachable_inv b hb).2.1 q s hcell hfd

theorem claim_C2_invariant_witness :
    ((boardC2base.flipFirst ⟨0, 0⟩ "alice").1.cellAt ⟨0, 1⟩
        = some { label := "B", faceUp := false, controller := none }) ∧
      (({ label := "B", faceUp := false, controller := none } : Slot).controller
        = none) := by
  refine ⟨by decide, ?_⟩
  exact claim_C2_invariant (boardC2base.flipFirst ⟨0, 0⟩ "alice").1
    (Reachable.fromFlipFirst ⟨0, 0⟩ "alice"
      (Reachable.fromConstruct
        (rfl : Board.construct 1 2 ["A", "B"] = .ok boardC2base)))
    ⟨0, 1⟩ { label := "B", faceUp := false, controller := none }
    (by decide) rfl
